import Mathlib

/-!
# Solar-System-Simulation: a verification development

A shallow embedding of `SolarSystem/main.cpp`:

* the five angle functions (`get_*_rotate_angle_*`), over an arbitrary field
  (the source computes in `float`; the statements below are about exact arithmetic);
* `generateCubeData`, with `std::vector` as `List` and `float` as finite binary32 values, so
  that `size / 2.0f` rounds as the machine does;
* the `glm` operations used by the render loop (`rotate`, `translate`, `radians`) and the
  per-frame composition of `model_earth`, `model_sun`, `model_moon`;
* `dump_framebuffer_to_ppm`, with the stream as a list of characters, the pixel array as a
  list of bytes, `ss_id` and the files as explicit state, and the three ways a call can end
  (it returns, `new[]` throws, the behaviour is undefined).
-/

namespace SolarSystem

/-! ## Orbital angles (main.cpp, lines 120-137) -/

section Angles

variable {K : Type} [Field K]

/-- Line 121: `return (360.0f / 27.0f) * day;`. -/
def get_sun_rotate_angle_around_itself (day : K) : K := (360 / 27) * day

/-- Line 125: `return (360.0f / 365.0f) * day;`. -/
def get_earth_rotate_angle_around_sun (day : K) : K := (360 / 365) * day

/-- Line 128: `return (360.0f / 1.0f) * day;`. -/
def get_earth_rotate_angle_around_itself (day : K) : K := (360 / 1) * day

/-- Line 132: `return (360.0f / 27.0f) * day;`. -/
def get_moon_rotate_angle_around_earth (day : K) : K := (360 / 27) * day

/-- Line 135: `return (360.0f / 27.0f) * day;`. -/
def get_moon_rotate_angle_around_itself (day : K) : K := (360 / 27) * day

/-- Two angles in degrees are congruent modulo 360: they differ by a whole number of turns. -/
def CongMod360 (a b : K) : Prop := ∃ k : ℤ, a - b = 360 * (k : K)

end Angles

/-! ## Vectors and matrices (the parts of `glm` the program uses) -/

/-- The type `glm::vec3`; a colour uses the same three components under the names `r`, `g`, `b`. -/
@[ext]
structure Vec3 (K : Type) where
  x : K
  y : K
  z : K
deriving DecidableEq, Repr

/-- The type `glm::vec4`. -/
@[ext]
structure Vec4 (K : Type) where
  x : K
  y : K
  z : K
  w : K
deriving DecidableEq, Repr

/-- The type `glm::mat4`, column-major as in glm: `c0 .. c3` are `m[0] .. m[3]`. -/
@[ext]
structure Mat4 (K : Type) where
  c0 : Vec4 K
  c1 : Vec4 K
  c2 : Vec4 K
  c3 : Vec4 K
deriving DecidableEq, Repr

/-- The scalar functions of the C++ maths library that `glm::radians` and `glm::rotate` call.
They are parameters of the embedding; the statements about real arithmetic instantiate them
with `Real.pi`, `Real.cos`, `Real.sin` and `fun x => (Real.sqrt x)⁻¹`. -/
structure GlmMath (K : Type) where
  pi : K
  cos : K → K
  sin : K → K
  inversesqrt : K → K

/-- Colour accessor `color.r` of `glm::vec3`. -/
def Vec3.r {K : Type} (v : Vec3 K) : K := v.x

/-- Colour accessor `color.g` of `glm::vec3`. -/
def Vec3.g {K : Type} (v : Vec3 K) : K := v.y

/-- Colour accessor `color.b` of `glm::vec3`. -/
def Vec3.b {K : Type} (v : Vec3 K) : K := v.z

section Glm

variable {K : Type} [Field K]

/-- Componentwise `vec4 + vec4`. -/
def Vec4.add (a b : Vec4 K) : Vec4 K := ⟨a.x + b.x, a.y + b.y, a.z + b.z, a.w + b.w⟩

/-- The product `vec4 * scalar`. -/
def Vec4.scale (a : Vec4 K) (s : K) : Vec4 K := ⟨a.x * s, a.y * s, a.z * s, a.w * s⟩

/-- The product `scalar * vec3`. -/
def Vec3.scale (s : K) (a : Vec3 K) : Vec3 K := ⟨s * a.x, s * a.y, s * a.z⟩

/-- The function `glm::dot` on `vec3`. -/
def Vec3.dot (a b : Vec3 K) : K := a.x * b.x + a.y * b.y + a.z * b.z

/-- The function `glm::normalize`: `v * inversesqrt(dot(v, v))`. -/
def normalize (G : GlmMath K) (v : Vec3 K) : Vec3 K :=
  let f := G.inversesqrt (Vec3.dot v v)
  ⟨v.x * f, v.y * f, v.z * f⟩

/-- The function `glm::radians`: degrees times pi / 180. -/
def radians (G : GlmMath K) (degrees : K) : K := degrees * (G.pi / 180)

/-- The constructor `glm::mat4(1.0f)`: the identity matrix. -/
def Mat4.identity : Mat4 K :=
  ⟨⟨1, 0, 0, 0⟩, ⟨0, 1, 0, 0⟩, ⟨0, 0, 1, 0⟩, ⟨0, 0, 0, 1⟩⟩

/-- The product `mat4 * vec4`: the combination of the columns with the vector's components. -/
def Mat4.mulVec (m : Mat4 K) (v : Vec4 K) : Vec4 K :=
  Vec4.add (Vec4.add (Vec4.add (m.c0.scale v.x) (m.c1.scale v.y)) (m.c2.scale v.z)) (m.c3.scale v.w)

/-- The product `mat4 * mat4`: column `j` of the result is `a * b[j]`. -/
def Mat4.mul (a b : Mat4 K) : Mat4 K :=
  ⟨a.mulVec b.c0, a.mulVec b.c1, a.mulVec b.c2, a.mulVec b.c3⟩

/-- The function `glm::translate(m, v)`:
`Result = m; Result[3] = m[0] * v[0] + m[1] * v[1] + m[2] * v[2] + m[3];`. -/
def translate (m : Mat4 K) (v : Vec3 K) : Mat4 K :=
  { m with c3 := Vec4.add (Vec4.add (Vec4.add (m.c0.scale v.x) (m.c1.scale v.y)) (m.c2.scale v.z)) m.c3 }

/-- The function `glm::rotate(m, angle, v)`, as glm computes it: the rotation matrix of the
normalised axis by Rodrigues' formula, then the first three columns of the result as
combinations of the columns of `m`, the fourth column unchanged. -/
def rotate (G : GlmMath K) (m : Mat4 K) (angle : K) (v : Vec3 K) : Mat4 K :=
  let c := G.cos angle
  let s := G.sin angle
  let axis := normalize G v
  let temp := Vec3.scale (1 - c) axis
  let r00 := c + temp.x * axis.x
  let r01 := temp.x * axis.y + s * axis.z
  let r02 := temp.x * axis.z - s * axis.y
  let r10 := temp.y * axis.x - s * axis.z
  let r11 := c + temp.y * axis.y
  let r12 := temp.y * axis.z + s * axis.x
  let r20 := temp.z * axis.x + s * axis.y
  let r21 := temp.z * axis.y - s * axis.x
  let r22 := c + temp.z * axis.z
  ⟨Vec4.add (Vec4.add (m.c0.scale r00) (m.c1.scale r01)) (m.c2.scale r02),
   Vec4.add (Vec4.add (m.c0.scale r10) (m.c1.scale r11)) (m.c2.scale r12),
   Vec4.add (Vec4.add (m.c0.scale r20) (m.c1.scale r21)) (m.c2.scale r22),
   m.c3⟩

/-- The homogeneous point `(0, 0, 0, 1)`: a body's centre in its own coordinates. -/
def origin : Vec4 K := ⟨0, 0, 0, 1⟩

/-- The first three components of a `vec4`. -/
def Vec4.xyz (v : Vec4 K) : Vec3 K := ⟨v.x, v.y, v.z⟩

/-- World position of a body's centre: the image of the origin under its model matrix. -/
def worldPosition (m : Mat4 K) : Vec3 K := (m.mulVec origin).xyz

/-- Image of a direction (a vector with `w = 0`) under a model matrix. -/
def Mat4.mulDir (m : Mat4 K) (d : Vec3 K) : Vec3 K := (m.mulVec ⟨d.x, d.y, d.z, 0⟩).xyz

/-- The translation component of a model matrix: the first three entries of its last column. -/
def Mat4.translation (m : Mat4 K) : Vec3 K := m.c3.xyz

/-- The 3x3 rotation component of a model matrix: the first three entries of its first three
columns. -/
def Mat4.rotation (m : Mat4 K) : Vec3 K × Vec3 K × Vec3 K := (m.c0.xyz, m.c1.xyz, m.c2.xyz)

/-- Componentwise difference of two positions. -/
def Vec3.sub (a b : Vec3 K) : Vec3 K := ⟨a.x - b.x, a.y - b.y, a.z - b.z⟩

/-- Squared Euclidean distance between two positions. -/
def distSq (a b : Vec3 K) : K := Vec3.dot (Vec3.sub a b) (Vec3.sub a b)

/-- The three columns of the 3x3 part of a matrix are orthonormal (the matrix moves bodies
rigidly: a rotation followed by a translation). -/
def Mat4.Orthonormal (m : Mat4 K) : Prop :=
  Vec3.dot m.c0.xyz m.c0.xyz = 1 ∧ Vec3.dot m.c1.xyz m.c1.xyz = 1 ∧
  Vec3.dot m.c2.xyz m.c2.xyz = 1 ∧ Vec3.dot m.c0.xyz m.c1.xyz = 0 ∧
  Vec3.dot m.c0.xyz m.c2.xyz = 0 ∧ Vec3.dot m.c1.xyz m.c2.xyz = 0

/-! ## Model matrices of the render loop (main.cpp, lines 313-354) -/

/-- Lines 324-330 with the literal `24.0f` of line 327 as the parameter `radius`. -/
def model_earth_with_radius (G : GlmMath K) (radius : K) (day : K) : Mat4 K :=
  let earth_rotation := get_earth_rotate_angle_around_itself day
  let earth_orbit_rotation := get_earth_rotate_angle_around_sun day
  let model_earth : Mat4 K := Mat4.identity
  let model_earth := rotate G model_earth (radians G earth_orbit_rotation) ⟨0, 1, 0⟩
  let model_earth := translate model_earth ⟨radius, 0, 0⟩
  let model_earth := rotate G model_earth (radians G (-earth_rotation)) ⟨0, 1, 0⟩
  let model_earth := rotate G model_earth (radians G (-(234 / 10))) ⟨0, 0, 1⟩
  let model_earth := rotate G model_earth (radians G earth_rotation) ⟨0, 1, 0⟩
  model_earth

/-- Lines 324-330: the Earth's model matrix of the frame at `day`. -/
def model_earth (G : GlmMath K) (day : K) : Mat4 K := model_earth_with_radius G 24 day

/-- Lines 328-330 alone, started from the identity: steps 3-5 of the Earth's composition. -/
def earth_tilt_spin (G : GlmMath K) (day : K) : Mat4 K :=
  let earth_rotation := get_earth_rotate_angle_around_itself day
  let m : Mat4 K := Mat4.identity
  let m := rotate G m (radians G (-earth_rotation)) ⟨0, 1, 0⟩
  let m := rotate G m (radians G (-(234 / 10))) ⟨0, 0, 1⟩
  let m := rotate G m (radians G earth_rotation) ⟨0, 1, 0⟩
  m

/-- Lines 339-341: the Sun's model matrix. -/
def model_sun (G : GlmMath K) (day : K) : Mat4 K :=
  let sun_rotation := get_sun_rotate_angle_around_itself day
  let model_sun : Mat4 K := Mat4.identity
  rotate G model_sun (radians G sun_rotation) ⟨0, 1, 0⟩

/-- Lines 350-354 started from a given Earth matrix: `model_moon = model_earth;` followed by
the three calls on `model_moon`. -/
def model_moon_from (G : GlmMath K) (earth : Mat4 K) (day : K) : Mat4 K :=
  let moon_rotation := get_moon_rotate_angle_around_itself day
  let moon_orbit_rotation := get_moon_rotate_angle_around_earth day
  let model_moon := earth
  let model_moon := rotate G model_moon (radians G moon_orbit_rotation) ⟨0, 1, 0⟩
  let model_moon := translate model_moon ⟨10, 0, 0⟩
  let model_moon := rotate G model_moon (radians G moon_rotation) ⟨0, 1, 0⟩
  model_moon

/-- Lines 350-354: the Moon's model matrix of the frame at `day`. -/
def model_moon (G : GlmMath K) (day : K) : Mat4 K := model_moon_from G (model_earth G day) day

end Glm

/-! ## The type `float` -/

/-- A finite `float` (IEEE 754 binary32) value, given by the integer `units`: the value is
`units * 2^-149`, and every finite binary32 value is such a multiple. The two zeros, which
`==` does not tell apart, are both `units = 0`. Infinities and NaN are not values of this
type: the sizes and colours of the program are finite, and the contract takes a real size. -/
structure F32 where
  units : Int
deriving DecidableEq, Repr

/-- The real (rational) number a `float` stands for. -/
def F32.toRat (x : F32) : ℚ := x.units / 2 ^ 149

/-- The multiples of `2^-149` that binary32 has: a significand of at most 24 bits times a
power of two up to `2^104 = 2^(253 - 149)`. -/
def F32.Representable (x : F32) : Prop :=
  ∃ (m : Int) (k : Nat), x.units = m * 2 ^ k ∧ -(2 ^ 24) < m ∧ m < 2 ^ 24 ∧ k ≤ 253

/-- The literal of a small whole number, such as `20.0f`. -/
def F32.ofNat (n : Nat) : F32 := ⟨n * 2 ^ 149⟩

/-- The literal `0.5f`. -/
def F32.oneHalf : F32 := ⟨2 ^ 148⟩

/-- Unary minus on `float`: exact. -/
def F32.neg (x : F32) : F32 := ⟨-x.units⟩

instance : Neg F32 := ⟨F32.neg⟩

/-- The quotient `x / 2.0f` in binary32, rounding to nearest, ties to even. Halving an even
multiple of `2^-149` is exact; an odd multiple (then the significand has the least exponent)
lies half-way between two neighbours and goes to the even one, so `2^-149 / 2.0f` is 0. -/
def F32.divTwo (x : F32) : F32 :=
  if x.units % 2 = 0 then ⟨x.units / 2⟩
  else if (x.units / 2) % 2 = 0 then ⟨x.units / 2⟩
  else ⟨x.units / 2 + 1⟩

/-! ## Cube geometry (main.cpp, lines 87-118) -/

section Cube

variable {K : Type}

/-- The array `cubeVertices` of lines 91-100: 8 records of 6 floats. -/
def cubeVertices [Neg K] (halfSize : K) (color : Vec3 K) : List K :=
  [-halfSize, -halfSize, -halfSize, color.r, color.g, color.b,
   halfSize, -halfSize, -halfSize, color.r, color.g, color.b,
   halfSize, halfSize, -halfSize, color.r, color.g, color.b,
   -halfSize, halfSize, -halfSize, color.r, color.g, color.b,
   -halfSize, -halfSize, halfSize, color.r, color.g, color.b,
   halfSize, -halfSize, halfSize, color.r, color.g, color.b,
   halfSize, halfSize, halfSize, color.r, color.g, color.b,
   -halfSize, halfSize, halfSize, color.r, color.g, color.b]

/-- The array `cubeIndices` of lines 102-115. -/
def cubeIndices : List Nat :=
  [0, 1, 2, 2, 3, 0,
   4, 5, 6, 6, 7, 4,
   0, 1, 5, 5, 4, 0,
   2, 3, 7, 7, 6, 2,
   0, 3, 7, 7, 4, 0,
   1, 2, 6, 6, 5, 1]

/-- Lines 87-118, in `float` arithmetic: `float halfSize = size / 2.0f;`. The two output
vectors are passed in and returned with the cube's data appended
(`vertices.insert(vertices.end(), ...)`, `indices.insert(indices.end(), ...)`). -/
def generateCubeData (size : F32) (color : Vec3 F32) (vertices : List F32)
    (indices : List Nat) : List F32 × List Nat :=
  let halfSize := F32.divTwo size
  (vertices ++ cubeVertices halfSize color, indices ++ cubeIndices)

/-- Line 270: `generateCubeData(20.0f, glm::vec3(1.0f, 1.0f, 0.0f), vertices_sun, indices_sun)`
on the freshly constructed, empty vectors. -/
def cube_sun : List F32 × List Nat :=
  generateCubeData (F32.ofNat 20) ⟨F32.ofNat 1, F32.ofNat 1, F32.ofNat 0⟩ [] []

/-- Line 272: `generateCubeData(8.0f, glm::vec3(0.0f, 0.0f, 1.0f), ...)`. -/
def cube_earth : List F32 × List Nat :=
  generateCubeData (F32.ofNat 8) ⟨F32.ofNat 0, F32.ofNat 0, F32.ofNat 1⟩ [] []

/-- Line 274: `generateCubeData(4.0f, glm::vec3(0.5f, 0.5f, 0.5f), ...)`. -/
def cube_moon : List F32 × List Nat :=
  generateCubeData (F32.ofNat 4) ⟨F32.oneHalf, F32.oneHalf, F32.oneHalf⟩ [] []

/-- The vertex layout of `bufferSetUp` (lines 154-158): records of 6 floats, position in the
first three, colour in the last three. -/
def vertexRecords : List K → List (Vec3 K × Vec3 K)
  | px :: py :: pz :: cr :: cg :: cb :: rest => (⟨px, py, pz⟩, ⟨cr, cg, cb⟩) :: vertexRecords rest
  | _ => []

/-- Positions of the vertex records, in order. -/
def vertexPositions (vs : List K) : List (Vec3 K) := (vertexRecords vs).map Prod.fst

/-- The index list read as consecutive triples (`GL_TRIANGLES`). -/
def triangles : List Nat → List (Nat × Nat × Nat)
  | a :: b :: c :: rest => (a, b, c) :: triangles rest
  | _ => []

/-- Coordinate number `axis` (0, 1, 2 for x, y, z) of a position. -/
def Vec3.coord (v : Vec3 K) (axis : Fin 3) : K :=
  match axis with
  | 0 => v.x
  | 1 => v.y
  | 2 => v.z

/-- A face of the axis-aligned cube: the plane `axis = +h` (`positive`) or `axis = -h`. -/
structure Face where
  axis : Fin 3
  positive : Bool
deriving DecidableEq, Repr

/-- The six faces x = -h, x = +h, y = -h, y = +h, z = -h, z = +h. -/
def allFaces : List Face :=
  [⟨0, false⟩, ⟨0, true⟩, ⟨1, false⟩, ⟨1, true⟩, ⟨2, false⟩, ⟨2, true⟩]

/-- The half-extent `h` with a sign: `+h` (`positive`) or `-h`. -/
def signed [Neg K] (positive : Bool) (h : K) : K := if positive then h else -h

/-- The value a face fixes its coordinate to, for half-extent `h`. -/
def Face.level [Neg K] (f : Face) (h : K) : K := signed f.positive h

/-- Vertex number `k` of the vertex list lies on the face `f` of the cube of half-extent `h`. -/
def vertexOnFace [Neg K] [DecidableEq K] (positions : List (Vec3 K)) (h : K) (f : Face) (k : Nat) : Bool :=
  match positions[k]? with
  | some p => decide (p.coord f.axis = f.level h)
  | none => false

/-- All three vertices of a triangle lie on the face. -/
def triangleOnFace [Neg K] [DecidableEq K] (positions : List (Vec3 K)) (h : K) (f : Face)
    (t : Nat × Nat × Nat) : Bool :=
  vertexOnFace positions h f t.1 && vertexOnFace positions h f t.2.1 &&
    vertexOnFace positions h f t.2.2

/-- The triangles of the index list that lie on the face. -/
def faceTriangles [Neg K] [DecidableEq K] (positions : List (Vec3 K)) (h : K) (f : Face)
    (tris : List (Nat × Nat × Nat)) : List (Nat × Nat × Nat) :=
  tris.filter (triangleOnFace positions h f)

/-- The vertex numbers used by a list of triangles, without repetition. -/
def usedVertices (tris : List (Nat × Nat × Nat)) : List Nat :=
  (tris.flatMap fun t => [t.1, t.2.1, t.2.2]).dedup

/-- The vertex numbers (corners) of the vertex list that lie on the face. -/
def faceCorners [Neg K] [DecidableEq K] (positions : List (Vec3 K)) (h : K) (f : Face) : List Nat :=
  (List.range positions.length).filter (vertexOnFace positions h f)

/-- A triangle is non-degenerate when its three vertex numbers are pairwise different. -/
def nonDegenerate (t : Nat × Nat × Nat) : Bool :=
  t.1 != t.2.1 && t.2.1 != t.2.2 && t.1 != t.2.2

end Cube

/-! ## Frame capture (main.cpp, lines 12, 43-64, 76-83) -/

/-- The type `GLubyte`: one byte. -/
abbrev GLubyte : Type := Fin 256

/-- What `operator<<` writes for a non-negative integer: its decimal digits. -/
def decimal (n : Nat) : List Char := Nat.toDigits 10 n

/-- What `std::endl` writes. -/
def endl : List Char := ['\n']

/-- Reduction of a `size_t` result modulo 2^64. -/
def wrap64 (n : Nat) : Nat := n % 2 ^ 64

/-- Reduction of an `unsigned int` result modulo 2^32. -/
def wrap32 (n : Nat) : Nat := n % 2 ^ 32

/-- Conversion of a value to `int` (two's complement, 32 bits). -/
def toInt32 (n : Nat) : Int :=
  if wrap32 n < 2 ^ 31 then (wrap32 n : Int) else (wrap32 n : Int) - 2 ^ 32

/-- Line 45: `int totalPixelSize = pixelChannel * width * height * sizeof(GLubyte);`.
`int * unsigned int` is an `unsigned int` product, the last factor makes it `size_t`, and
the initialisation converts to `int`. -/
def totalPixelSize (width height : Nat) : Int :=
  let pixelChannel := 3
  toInt32 (wrap64 (wrap32 (wrap32 (pixelChannel * wrap32 width) * wrap32 height) * 1))

/-- The `size_t` value `height - i - 1` of line 55 (unsigned subtraction wraps). -/
def flippedRow (height i : Nat) : Nat :=
  wrap64 (wrap64 (height + 2 ^ 64 - wrap64 i) + 2 ^ 64 - 1)

/-- Line 55: `size_t cur = pixelChannel * ((height - i - 1) * width + j);`. -/
def cur (width height i j : Nat) : Nat :=
  let pixelChannel := 3
  wrap64 (pixelChannel * wrap64 (wrap64 (flippedRow height i * width) + j))

/-- Concatenation of the outputs of successive loop iterations; `none` as soon as one
iteration fails. -/
def emitAll : List (Option (List Char)) → Option (List Char)
  | [] => some []
  | x :: xs => x.bind fun a => (emitAll xs).map fun b => a ++ b

/-- The value `(int)pixels[k]` for an offset inside the array (0 outside it). -/
def sampleAt (pixels : List GLubyte) (k : Nat) : Nat := (pixels.getD k 0).val

/-- Line 56, the characters written for the three values:
`fout << r << " " << g << " " << b << " "`. -/
def pixelChars (r g b : Nat) : List Char :=
  decimal r ++ [' '] ++ decimal g ++ [' '] ++ decimal b ++ [' ']

/-- Line 56: the text of one pixel; `none` when an offset lies outside the array. -/
def pixelText (pixels : List GLubyte) (cur : Nat) : Option (List Char) :=
  match pixels[cur]?, pixels[cur + 1]?, pixels[cur + 2]? with
  | some r, some g, some b => some (pixelChars r.val g.val b.val)
  | _, _, _ => none

/-- Lines 53-58: iteration `i` of the outer loop, the inner loop followed by `std::endl`. -/
def rowText (width height : Nat) (pixels : List GLubyte) (i : Nat) : Option (List Char) :=
  (emitAll ((List.range width).map fun j => pixelText pixels (cur width height i j))).map
    fun row => row ++ endl

/-- Line 50: the header. -/
def headerText (width height : Nat) : List Char :=
  ['P', '3', '\n'] ++ decimal width ++ [' '] ++ decimal height ++ ['\n'] ++ decimal 255 ++ endl

/-- Lines 50-59: everything sent to `fout`, for the bytes `pixels` that `glReadPixels` left
in the array; `none` when an iteration reads an offset outside them. -/
def ppmText (width height : Nat) (pixels : List GLubyte) : Option (List Char) :=
  (emitAll ((List.range height).map fun i => rowText width height pixels i)).map
    fun body => headerText width height ++ body

/-- The state the capture routine acts on: the counter `ss_id` (line 12), the files on disk
by name, and the two answers of the environment the routine depends on: whether
`new GLubyte[n]` finds `n` bytes, and whether a `std::ofstream` on a name opens. -/
structure World where
  ss_id : Nat
  files : String → Option (List Char)
  allocates : Nat → Bool
  opens : String → Bool

/-- The state at program start, `static unsigned int ss_id = 0;` and no capture on disk, in
an environment where memory is available and every file can be opened. -/
def World.initial : World := ⟨0, fun _ => none, fun _ => true, fun _ => true⟩

/-- How a call of the capture routine ends: it returns, `new[]` throws (a negative array
size, or no memory), or the behaviour is undefined (an access outside the array, or a read of
a byte that was never written). -/
inductive Outcome where
  | returned (st : World)
  | threw
  | undefined

/-- Line 48: `std::string file_name = prefix + ".ppm";`. -/
def file_name ( prefix_ : String) : String := prefix_ ++ ".ppm"

/-- Lines 43-64. `frame` is what `glReadPixels` (line 47) stores through `pixels`.
Line 46 allocates `totalPixelSize` bytes: a negative size throws, and so does a refusal of
the allocator. Storing more bytes than the array has is undefined, and so is a loop
iteration that reads an offset `glReadPixels` did not fill. The stream of line 49 replaces
the named file when it opens; when it does not, every `<<` is without effect and no file is
written. Line 60 counts the call in both cases. -/
def dump_framebuffer_to_ppm (st : World) ( prefix_ : String) (width height : Nat)
    (frame : List GLubyte) : Outcome :=
  let total := totalPixelSize width height
  if total < 0 then Outcome.threw
  else if st.allocates total.toNat = false then Outcome.threw
  else if total.toNat < frame.length then Outcome.undefined
  else
    match ppmText width height frame with
    | none => Outcome.undefined
    | some text =>
      Outcome.returned
        { st with
          ss_id := wrap32 (st.ss_id + 1)
          files :=
            if st.opens (file_name prefix_) then
              Function.update st.files (file_name prefix_) (some text)
            else st.files }

/-- Lines 77-83: the capture branch of `processInput`. -/
def processInput_capture (st : World) (buffer_width buffer_height : Nat)
    (frame : List GLubyte) : Outcome :=
  dump_framebuffer_to_ppm st "solarSystem" buffer_width buffer_height frame

/-! ### Reading a plain PPM file back -/

/-- White space of the PPM format: blank, TAB, CR, LF. -/
def isWhite (c : Char) : Bool := c == ' ' || c == '\n' || c == '\t' || c == '\r'

/-- Splitting into white-space-separated tokens; `acc` is the current token, reversed. -/
def tokensAux : List Char → List Char → List (List Char)
  | acc, [] => if acc.isEmpty then [] else [acc.reverse]
  | acc, c :: cs =>
    if isWhite c then
      (if acc.isEmpty then tokensAux [] cs else acc.reverse :: tokensAux [] cs)
    else tokensAux (c :: acc) cs

/-- The white-space-separated tokens of a text. -/
def tokens (text : List Char) : List (List Char) := tokensAux [] text

/-- Value of a decimal digit character. -/
def digitValue (c : Char) : Option Nat :=
  if '0' ≤ c ∧ c ≤ '9' then some (c.toNat - '0'.toNat) else none

/-- One step of reading a numeral: the value so far, times ten, plus the next digit. -/
def parseStep (acc : Option Nat) (c : Char) : Option Nat :=
  match acc, digitValue c with
  | some a, some d => some (a * 10 + d)
  | _, _ => none

/-- Reading an unsigned decimal numeral; `none` for the empty token or a non-digit. -/
def parseDecimal (token : List Char) : Option Nat :=
  if token.isEmpty then none else token.foldl parseStep (some 0)

/-- Reading every token of a list as a decimal numeral. -/
def parseAll : List (List Char) → Option (List Nat)
  | [] => some []
  | t :: ts => (parseDecimal t).bind fun n => (parseAll ts).map fun ns => n :: ns

/-- A plain (P3) PPM image: the header fields and the samples in file order. -/
structure P3Image where
  width : Nat
  height : Nat
  maxval : Nat
  samples : List Nat
deriving DecidableEq, Repr

/-- Reading a text as a P3 image: the magic number, width, height, maximum value, then
exactly `3 * width * height` samples. -/
def readP3 (text : List Char) : Option P3Image :=
  match tokens text with
  | magic :: w :: h :: m :: rest =>
    if magic = ['P', '3'] then
      match parseDecimal w, parseDecimal h, parseDecimal m, parseAll rest with
      | some width, some height, some maxval, some samples =>
        if samples.length = 3 * width * height then some ⟨width, height, maxval, samples⟩
        else none
      | _, _, _, _ => none
    else none
  | _ => none

/-- The RGB triple at row `i` (from the first scanline of the text), column `j`. -/
def P3Image.pixel (img : P3Image) (i j : Nat) : Option (Nat × Nat × Nat) :=
  match img.samples[3 * (i * img.width + j)]?, img.samples[3 * (i * img.width + j) + 1]?,
      img.samples[3 * (i * img.width + j) + 2]? with
  | some r, some g, some b => some (r, g, b)
  | _, _, _ => none

/-- The samples of the array in the order of a top-down image: for text row `i` and column
`j`, the three bytes at offset `3 * ((height - 1 - i) * width + j)`. -/
def flippedSamples (width height : Nat) (pixels : List GLubyte) : List Nat :=
  (List.range height).flatMap fun i =>
    (List.range width).flatMap fun j =>
      [sampleAt pixels (3 * ((height - 1 - i) * width + j)),
       sampleAt pixels (3 * ((height - 1 - i) * width + j) + 1),
       sampleAt pixels (3 * ((height - 1 - i) * width + j) + 2)]

/-- The RGB triple stored in the pixel array for buffer row `row`, column `j`. -/
def bufferPixel (width : Nat) (pixels : List GLubyte) (row j : Nat) : Option (Nat × Nat × Nat) :=
  match pixels[3 * (row * width + j)]?, pixels[3 * (row * width + j) + 1]?,
      pixels[3 * (row * width + j) + 2]? with
  | some r, some g, some b => some (r.val, g.val, b.val)
  | _, _, _ => none

/-! # Theorems -/

/-! ## Orbital angles -/

/-- C1: over exact arithmetic (any ordered field, so the rationals and the reals), for every
`day ≥ 0` each of the five angle functions, advanced by its period (27, 1, 365, 27, 27 days),
grows by exactly 360 degrees, hence is congruent to its old value modulo 360; at `day = 365`
the Earth's orbit angle is 360 and its self-rotation angle is `365 * 360`, congruent to 0. -/
theorem angle_periodicity {K : Type} [LinearOrderedField K] (day : K) (hday : 0 ≤ day) :
    (get_sun_rotate_angle_around_itself (day + 27)
        - get_sun_rotate_angle_around_itself day = 360 ∧
      get_earth_rotate_angle_around_itself (day + 1)
        - get_earth_rotate_angle_around_itself day = 360 ∧
      get_earth_rotate_angle_around_sun (day + 365)
        - get_earth_rotate_angle_around_sun day = 360 ∧
      get_moon_rotate_angle_around_earth (day + 27)
        - get_moon_rotate_angle_around_earth day = 360 ∧
      get_moon_rotate_angle_around_itself (day + 27)
        - get_moon_rotate_angle_around_itself day = 360) ∧
    (CongMod360 (get_sun_rotate_angle_around_itself (day + 27))
        (get_sun_rotate_angle_around_itself day) ∧
      CongMod360 (get_earth_rotate_angle_around_itself (day + 1))
        (get_earth_rotate_angle_around_itself day) ∧
      CongMod360 (get_earth_rotate_angle_around_sun (day + 365))
        (get_earth_rotate_angle_around_sun day) ∧
      CongMod360 (get_moon_rotate_angle_around_earth (day + 27))
        (get_moon_rotate_angle_around_earth day) ∧
      CongMod360 (get_moon_rotate_angle_around_itself (day + 27))
        (get_moon_rotate_angle_around_itself day)) ∧
    (get_earth_rotate_angle_around_sun (365 : K) = 360 ∧
      get_earth_rotate_angle_around_itself (365 : K) = 365 * 360 ∧
      CongMod360 (get_earth_rotate_angle_around_itself (365 : K)) 0) := by
  have _ := hday
  have h1 : get_sun_rotate_angle_around_itself (day + 27)
      - get_sun_rotate_angle_around_itself day = 360 := by
    unfold get_sun_rotate_angle_around_itself; ring
  have h2 : get_earth_rotate_angle_around_itself (day + 1)
      - get_earth_rotate_angle_around_itself day = 360 := by
    unfold get_earth_rotate_angle_around_itself; ring
  have h3 : get_earth_rotate_angle_around_sun (day + 365)
      - get_earth_rotate_angle_around_sun day = 360 := by
    unfold get_earth_rotate_angle_around_sun; ring
  have h4 : get_moon_rotate_angle_around_earth (day + 27)
      - get_moon_rotate_angle_around_earth day = 360 := by
    unfold get_moon_rotate_angle_around_earth; ring
  have h5 : get_moon_rotate_angle_around_itself (day + 27)
      - get_moon_rotate_angle_around_itself day = 360 := by
    unfold get_moon_rotate_angle_around_itself; ring
  refine ⟨⟨h1, h2, h3, h4, h5⟩, ⟨⟨1, ?_⟩, ⟨1, ?_⟩, ⟨1, ?_⟩, ⟨1, ?_⟩, ⟨1, ?_⟩⟩, ?_, ?_, ⟨365, ?_⟩⟩
  · rw [h1]; norm_num
  · rw [h2]; norm_num
  · rw [h3]; norm_num
  · rw [h4]; norm_num
  · rw [h5]; norm_num
  · unfold get_earth_rotate_angle_around_sun; norm_num
  · unfold get_earth_rotate_angle_around_itself; norm_num
  · unfold get_earth_rotate_angle_around_itself; norm_num

/-- C1 at the rational day 27: the Sun's angle goes from 360 to 720 over one period. -/
theorem angle_periodicity_witness :
    (0 : ℚ) ≤ 27 ∧
      get_sun_rotate_angle_around_itself ((27 : ℚ) + 27)
        - get_sun_rotate_angle_around_itself (27 : ℚ) = 360 ∧
      get_sun_rotate_angle_around_itself (27 : ℚ) = 360 :=
  ⟨by norm_num, (angle_periodicity (27 : ℚ) (by norm_num)).1.1,
    by unfold get_sun_rotate_angle_around_itself; norm_num⟩

/-! ## Cube geometry -/

/-- A non-zero `float` differs from its negative. -/
theorem F32.neg_ne_self (h : F32) (hh : h.units ≠ 0) : -h ≠ h ∧ h ≠ -h := by
  have hneg : (-h).units = -h.units := rfl
  constructor
  · intro e
    rw [e] at hneg
    omega
  · intro e
    rw [← e] at hneg
    omega

/-- Halving gives zero exactly for 0 and for the two floats of least magnitude. -/
theorem F32.divTwo_eq_zero_iff (x : F32) :
    (F32.divTwo x).units = 0 ↔ x.units = 0 ∨ x.units = 1 ∨ x.units = -1 := by
  unfold F32.divTwo
  split_ifs <;> simp only <;> omega

/-- Halving is correctly rounded: the result is within half a unit of the exact quotient,
and when it is not exact it is the even neighbour. -/
theorem F32.divTwo_rounds (x : F32) :
    -1 ≤ 2 * (F32.divTwo x).units - x.units ∧ 2 * (F32.divTwo x).units - x.units ≤ 1 ∧
    (x.units % 2 ≠ 0 → (F32.divTwo x).units % 2 = 0) := by
  unfold F32.divTwo
  split_ifs <;> simp only <;> omega

/-- Halving an even multiple of `2^-149` is exact. -/
theorem F32.divTwo_exact (x : F32) (h : x.units % 2 = 0) :
    (F32.divTwo x).toRat = x.toRat / 2 := by
  obtain ⟨q, hq⟩ : ∃ q, x.units = 2 * q := ⟨x.units / 2, by omega⟩
  have hd : F32.divTwo x = ⟨q⟩ := by
    unfold F32.divTwo
    rw [if_pos h]
    congr 1
    omega
  rw [hd]
  simp only [F32.toRat, hq]
  push_cast
  ring

/-- Halving stays inside binary32. -/
theorem F32.divTwo_representable (x : F32) (hx : x.Representable) :
    (F32.divTwo x).Representable := by
  obtain ⟨m, k, hu, h1, h2, hk⟩ := hx
  cases k with
  | zero =>
    have hm : x.units = m := by simpa using hu
    refine ⟨(F32.divTwo x).units, 0, by simp, ?_, ?_, Nat.zero_le _⟩
    · unfold F32.divTwo
      split_ifs <;> simp only <;> omega
    · unfold F32.divTwo
      split_ifs <;> simp only <;> omega
  | succ k =>
    have hu' : x.units = 2 * (m * 2 ^ k) := by rw [hu, pow_succ]; ring
    refine ⟨m, k, ?_, h1, h2, by omega⟩
    generalize m * 2 ^ k = t at hu'
    unfold F32.divTwo
    split_ifs <;> simp only <;> omega

/-- Halving the literal of an even whole number gives the literal of its half. -/
theorem F32.divTwo_ofNat_even (n : Nat) :
    F32.divTwo (F32.ofNat (2 * n)) = F32.ofNat n ∧
    (0 < n → (F32.divTwo (F32.ofNat (2 * n))).units ≠ 0) := by
  have hu : (F32.ofNat (2 * n)).units = 2 * ((n : Int) * 2 ^ 149) := by
    simp only [F32.ofNat]
    push_cast
    ring
  have hd : F32.divTwo (F32.ofNat (2 * n)) = F32.ofNat n := by
    unfold F32.divTwo
    rw [hu]
    simp only [F32.ofNat]
    generalize (n : Int) * 2 ^ 149 = t
    split_ifs <;> simp only [F32.mk.injEq] <;> omega
  refine ⟨hd, fun hn => ?_⟩
  rw [hd]
  simp only [F32.ofNat]
  positivity

/-- The vertex records `generateCubeData` leaves in an empty vector, read off lines 91-100. -/
theorem vertexRecords_generateCubeData (size : F32) (color : Vec3 F32) :
    vertexRecords (generateCubeData size color [] []).1 =
      [(⟨-F32.divTwo size, -F32.divTwo size, -F32.divTwo size⟩, color),
       (⟨F32.divTwo size, -F32.divTwo size, -F32.divTwo size⟩, color),
       (⟨F32.divTwo size, F32.divTwo size, -F32.divTwo size⟩, color),
       (⟨-F32.divTwo size, F32.divTwo size, -F32.divTwo size⟩, color),
       (⟨-F32.divTwo size, -F32.divTwo size, F32.divTwo size⟩, color),
       (⟨F32.divTwo size, -F32.divTwo size, F32.divTwo size⟩, color),
       (⟨F32.divTwo size, F32.divTwo size, F32.divTwo size⟩, color),
       (⟨-F32.divTwo size, F32.divTwo size, F32.divTwo size⟩, color)] := by
  simp [generateCubeData, cubeVertices, vertexRecords, Vec3.r, Vec3.g, Vec3.b]

/-- C2, as the code has it in `float` arithmetic: called with empty vectors,
`generateCubeData` leaves 48 floats forming 8 vertex records and 36 indices; every coordinate
of every position is `+h` or `-h` for `h = size / 2.0f`, each of the 8 sign combinations
occurs among the 8 positions, which are pairwise distinct when `h` is not zero, and every
record carries the input colour. `h` is exactly half the size when the size is an even
multiple of `2^-149`, and `h` is zero only for the sizes 0 and `±2^-149`: the positions are
pairwise distinct for every size `> 0` other than `2^-149`. -/
theorem generateCubeData_shape (size : F32) (color : Vec3 F32) :
    (generateCubeData size color [] []).1.length = 48 ∧
    (generateCubeData size color [] []).2.length = 36 ∧
    (vertexRecords (generateCubeData size color [] []).1).length = 8 ∧
    (∀ p ∈ vertexPositions (generateCubeData size color [] []).1, ∀ axis : Fin 3,
      p.coord axis = F32.divTwo size ∨ p.coord axis = -F32.divTwo size) ∧
    (∀ sx sy sz : Bool,
      (⟨signed sx (F32.divTwo size), signed sy (F32.divTwo size),
          signed sz (F32.divTwo size)⟩ : Vec3 F32)
        ∈ vertexPositions (generateCubeData size color [] []).1) ∧
    ((F32.divTwo size).units ≠ 0 →
      (vertexPositions (generateCubeData size color [] []).1).Nodup) ∧
    (∀ v ∈ vertexRecords (generateCubeData size color [] []).1, v.2 = color) ∧
    (size.units % 2 = 0 → (F32.divTwo size).toRat = size.toRat / 2) ∧
    ((F32.divTwo size).units = 0 ↔ size.units = 0 ∨ size.units = 1 ∨ size.units = -1) ∧
    (0 < size.toRat → size ≠ ⟨1⟩ →
      (vertexPositions (generateCubeData size color [] []).1).Nodup) := by
  have hrec := vertexRecords_generateCubeData size color
  have hdistinct : (F32.divTwo size).units ≠ 0 →
      (vertexPositions (generateCubeData size color [] []).1).Nodup := by
    intro hs
    obtain ⟨hne, hne'⟩ := F32.neg_ne_self (F32.divTwo size) hs
    simp only [vertexPositions, hrec, List.map_cons, List.map_nil]
    generalize F32.divTwo size = h at hne hne'
    simp [Vec3.mk.injEq, hne, hne']
  refine ⟨?_, ?_, ?_, ?_, ?_, hdistinct, ?_, F32.divTwo_exact size, F32.divTwo_eq_zero_iff size,
    ?_⟩
  · simp [generateCubeData, cubeVertices]
  · simp [generateCubeData, cubeIndices]
  · rw [hrec]; rfl
  · intro p hp axis
    simp only [vertexPositions, hrec, List.map_cons, List.map_nil, List.mem_cons,
      List.mem_singleton, List.not_mem_nil, or_false] at hp
    fin_cases axis <;> rcases hp with h | h | h | h | h | h | h | h <;> subst h <;>
      simp [Vec3.coord]
  · intro sx sy sz
    simp only [vertexPositions, hrec, List.map_cons, List.map_nil]
    cases sx <;> cases sy <;> cases sz <;> simp [signed]
  · intro v hv
    rw [hrec] at hv
    simp only [List.mem_cons, List.mem_singleton, List.not_mem_nil, or_false] at hv
    rcases hv with h | h | h | h | h | h | h | h <;> subst h <;> rfl
  · intro hpos hne
    apply hdistinct
    rw [Ne, F32.divTwo_eq_zero_iff]
    have hu : 0 < size.units := by
      unfold F32.toRat at hpos
      have h2 : (0 : ℚ) < 2 ^ 149 := by positivity
      have h3 : (0 : ℚ) < (size.units : ℚ) := by
        rcases lt_trichotomy (0 : ℚ) (size.units : ℚ) with h | h | h
        · exact h
        · rw [← h] at hpos; simp at hpos
        · exact absurd hpos (not_lt.2 (le_of_lt (div_neg_of_neg_of_pos h h2)))
      exact_mod_cast h3
    have h1 : size.units ≠ 1 := by
      intro e
      apply hne
      cases size
      simp only at e
      rw [e]
    omega

/-- C2 at the Sun's cube (line 270: size 20, yellow): the half-extent is exactly 10, not
zero, so the 8 positions are pairwise distinct. -/
theorem generateCubeData_shape_witness :
    F32.divTwo (F32.ofNat 20) = F32.ofNat 10 ∧
    (vertexRecords cube_sun.1).length = 8 ∧ (vertexPositions cube_sun.1).Nodup :=
  ⟨(F32.divTwo_ofNat_even 10).1,
    (generateCubeData_shape (F32.ofNat 20) ⟨F32.ofNat 1, F32.ofNat 1, F32.ofNat 0⟩).2.2.1,
    (generateCubeData_shape (F32.ofNat 20) ⟨F32.ofNat 1, F32.ofNat 1, F32.ofNat 0⟩).2.2.2.2.2.1
      ((F32.divTwo_ofNat_even 10).2 (by decide))⟩

/-- C2 as stated fails at the least positive `float`, `2^-149`: the size is positive, but
`size / 2.0f` rounds to 0, so all 8 positions are the origin (not pairwise distinct) and
their coordinates are not half the size. -/
theorem generateCubeData_least_positive_size :
    0 < (⟨1⟩ : F32).toRat ∧ (⟨1⟩ : F32).Representable ∧
    vertexPositions (generateCubeData ⟨1⟩ ⟨F32.ofNat 1, F32.ofNat 1, F32.ofNat 0⟩ [] []).1 =
      List.replicate 8 ⟨⟨0⟩, ⟨0⟩, ⟨0⟩⟩ ∧
    ¬ (vertexPositions
      (generateCubeData ⟨1⟩ ⟨F32.ofNat 1, F32.ofNat 1, F32.ofNat 0⟩ [] []).1).Nodup ∧
    (F32.divTwo ⟨1⟩).toRat ≠ (⟨1⟩ : F32).toRat / 2 := by
  refine ⟨by norm_num [F32.toRat], ⟨1, 0, by norm_num, by norm_num, by norm_num, by norm_num⟩,
    by decide, by decide, ?_⟩
  have h : F32.divTwo ⟨1⟩ = ⟨0⟩ := by decide
  rw [h]
  norm_num [F32.toRat]

/-- C3, as the code has it in `float` arithmetic: the index list does not depend on size or
colour, every index is below 8, the 12 triples have three different vertex numbers each, and
when `h = size / 2.0f` is not zero (every size other than 0 and `±2^-149`) each of the six
faces `axis = ±h` contains exactly 2 of the 12 triangles and exactly 4 of the 8 vertices,
the vertices used by its 2 triangles being exactly those 4 corners. -/
theorem cube_triangles (size : F32) (color : Vec3 F32)
    (hh : (F32.divTwo size).units ≠ 0) :
    (∀ (size' : F32) (color' : Vec3 F32),
      (generateCubeData size' color' [] []).2 = (generateCubeData size color [] []).2) ∧
    (∀ k ∈ (generateCubeData size color [] []).2, k < 8) ∧
    (triangles (generateCubeData size color [] []).2).length = 12 ∧
    (∀ t ∈ triangles (generateCubeData size color [] []).2, nonDegenerate t = true) ∧
    (∀ f ∈ allFaces,
      (faceTriangles (vertexPositions (generateCubeData size color [] []).1) (F32.divTwo size) f
        (triangles (generateCubeData size color [] []).2)).length = 2 ∧
      (faceCorners (vertexPositions (generateCubeData size color [] []).1)
        (F32.divTwo size) f).length = 4 ∧
      ∀ k, k ∈ usedVertices (faceTriangles
            (vertexPositions (generateCubeData size color [] []).1) (F32.divTwo size) f
            (triangles (generateCubeData size color [] []).2)) ↔
        k ∈ faceCorners (vertexPositions (generateCubeData size color [] []).1)
          (F32.divTwo size) f) ∧
    ((F32.divTwo size).units ≠ 0 ↔ ¬ (size.units = 0 ∨ size.units = 1 ∨ size.units = -1)) := by
  obtain ⟨hne', hne⟩ := F32.neg_ne_self (F32.divTwo size) hh
  have hidx : ∀ (s : F32) (c : Vec3 F32), (generateCubeData s c [] []).2 = cubeIndices := by
    intro s c; rfl
  refine ⟨?_, ?_, ?_, ?_, ?_, not_congr (F32.divTwo_eq_zero_iff size)⟩
  · intro s c; rfl
  · rw [hidx]; decide
  · rw [hidx]; decide
  · rw [hidx]; decide
  · intro f hf
    rw [hidx]
    simp only [vertexPositions, vertexRecords_generateCubeData, List.map_cons, List.map_nil]
    simp only [allFaces, List.mem_cons, List.mem_singleton, List.not_mem_nil, or_false] at hf
    generalize F32.divTwo size = h at hne hne'
    rcases hf with h | h | h | h | h | h <;> subst h <;>
      simp [faceTriangles, faceCorners, usedVertices, triangles, cubeIndices, triangleOnFace,
        vertexOnFace, Face.level, signed, Vec3.coord, hne, hne', List.range_succ,
        List.filter_cons] <;>
      (intro k; omega)

/-- C3 at the Earth's cube (line 272: size 8, blue): the face `x = -4` holds 2 triangles. -/
theorem cube_triangles_witness :
    (F32.divTwo (F32.ofNat 8)).units ≠ 0 ∧
    (faceTriangles (vertexPositions cube_earth.1) (F32.divTwo (F32.ofNat 8))
      ⟨0, false⟩ (triangles cube_earth.2)).length = 2 :=
  ⟨(F32.divTwo_ofNat_even 4).2 (by decide),
    ((cube_triangles (F32.ofNat 8) ⟨F32.ofNat 0, F32.ofNat 0, F32.ofNat 1⟩
      ((F32.divTwo_ofNat_even 4).2 (by decide))).2.2.2.2.1 ⟨0, false⟩ (by decide)).1⟩

/-- C3 as stated fails at the least positive `float`, `2^-149`: the size is positive, but
`h = size / 2.0f` is 0, all 8 vertices coincide, and the face `x = -h` contains all 12
triangles instead of 2 and all 8 vertices instead of 4. -/
theorem cube_triangles_least_positive_size :
    0 < (⟨1⟩ : F32).toRat ∧ (⟨1⟩ : F32).Representable ∧
    (faceTriangles
      (vertexPositions (generateCubeData ⟨1⟩ ⟨F32.ofNat 1, F32.ofNat 1, F32.ofNat 0⟩ [] []).1)
      (F32.divTwo ⟨1⟩) ⟨0, false⟩
      (triangles (generateCubeData ⟨1⟩ ⟨F32.ofNat 1, F32.ofNat 1, F32.ofNat 0⟩ [] []).2)).length
      = 12 ∧
    (faceCorners
      (vertexPositions (generateCubeData ⟨1⟩ ⟨F32.ofNat 1, F32.ofNat 1, F32.ofNat 0⟩ [] []).1)
      (F32.divTwo ⟨1⟩) ⟨0, false⟩).length = 8 := by
  refine ⟨by norm_num [F32.toRat], ⟨1, 0, by norm_num, by norm_num, by norm_num, by norm_num⟩,
    by decide, by decide⟩

/-! ## Model matrices -/

section MatrixLemmas

variable {K : Type} [Field K]

/-- About the unit axis `(0, 1, 0)`, `glm::rotate` mixes the first and third columns. -/
theorem rotate_axis_y (G : GlmMath K) (h1 : G.inversesqrt 1 = 1) (m : Mat4 K) (a : K) :
    rotate G m a ⟨0, 1, 0⟩ =
      ⟨Vec4.add (m.c0.scale (G.cos a)) (m.c2.scale (-(G.sin a))), m.c1,
       Vec4.add (m.c0.scale (G.sin a)) (m.c2.scale (G.cos a)), m.c3⟩ := by
  ext <;> simp [rotate, normalize, Vec3.dot, Vec3.scale, Vec4.add, Vec4.scale, h1]

/-- About the unit axis `(0, 0, 1)`, `glm::rotate` mixes the first and second columns. -/
theorem rotate_axis_z (G : GlmMath K) (h1 : G.inversesqrt 1 = 1) (m : Mat4 K) (a : K) :
    rotate G m a ⟨0, 0, 1⟩ =
      ⟨Vec4.add (m.c0.scale (G.cos a)) (m.c1.scale (G.sin a)),
       Vec4.add (m.c0.scale (-(G.sin a))) (m.c1.scale (G.cos a)), m.c2, m.c3⟩ := by
  ext <;> simp [rotate, normalize, Vec3.dot, Vec3.scale, Vec4.add, Vec4.scale, h1]

/-- The world position is the last column. -/
theorem worldPosition_eq (m : Mat4 K) : worldPosition m = m.c3.xyz := by
  ext <;> simp [worldPosition, Mat4.mulVec, origin, Vec4.add, Vec4.scale, Vec4.xyz]

/-- A rotation leaves the body's centre where it is. -/
theorem worldPosition_rotate (G : GlmMath K) (m : Mat4 K) (a : K) (v : Vec3 K) :
    worldPosition (rotate G m a v) = worldPosition m := by
  simp only [worldPosition_eq, rotate]

/-- A translation along local X by `r` moves the centre by `r` times the first column. -/
theorem worldPosition_translate_x (m : Mat4 K) (r : K) :
    Vec3.sub (worldPosition (translate m ⟨r, 0, 0⟩)) (worldPosition m) =
      Vec3.scale r m.c0.xyz := by
  ext <;> simp [worldPosition_eq, translate, Vec3.sub, Vec3.scale, Vec4.add, Vec4.scale,
    Vec4.xyz, mul_comm]

/-- Hence the centre moves by distance `|r|` when the columns are orthonormal. -/
theorem distSq_translate_x (m : Mat4 K) (hm : m.Orthonormal) (r : K) :
    distSq (worldPosition (translate m ⟨r, 0, 0⟩)) (worldPosition m) = r ^ 2 := by
  have h := hm.1
  simp only [distSq, worldPosition_translate_x]
  simp only [Vec3.dot, Vec3.scale, Vec4.xyz] at h ⊢
  linear_combination r ^ 2 * h

theorem orthonormal_identity : (Mat4.identity : Mat4 K).Orthonormal := by
  simp [Mat4.Orthonormal, Mat4.identity, Vec3.dot, Vec4.xyz]

theorem orthonormal_translate (m : Mat4 K) (hm : m.Orthonormal) (v : Vec3 K) :
    (translate m v).Orthonormal := hm

theorem orthonormal_rotate_y (G : GlmMath K) (h1 : G.inversesqrt 1 = 1) (a : K)
    (hcs : G.cos a ^ 2 + G.sin a ^ 2 = 1) (m : Mat4 K) (hm : m.Orthonormal) :
    (rotate G m a ⟨0, 1, 0⟩).Orthonormal := by
  obtain ⟨h00, h11, h22, h01, h02, h12⟩ := hm
  rw [rotate_axis_y G h1]
  simp only [Mat4.Orthonormal, Vec3.dot, Vec4.xyz, Vec4.add, Vec4.scale] at *
  refine ⟨?_, h11, ?_, ?_, ?_, ?_⟩
  · linear_combination (G.cos a ^ 2) * h00 + (G.sin a ^ 2) * h22
      - 2 * G.cos a * G.sin a * h02 + hcs
  · linear_combination (G.sin a ^ 2) * h00 + (G.cos a ^ 2) * h22
      + 2 * G.cos a * G.sin a * h02 + hcs
  · linear_combination G.cos a * h01 - G.sin a * h12
  · linear_combination G.cos a * G.sin a * h00 - G.cos a * G.sin a * h22
      + (G.cos a ^ 2 - G.sin a ^ 2) * h02
  · linear_combination G.sin a * h01 + G.cos a * h12

theorem orthonormal_rotate_z (G : GlmMath K) (h1 : G.inversesqrt 1 = 1) (a : K)
    (hcs : G.cos a ^ 2 + G.sin a ^ 2 = 1) (m : Mat4 K) (hm : m.Orthonormal) :
    (rotate G m a ⟨0, 0, 1⟩).Orthonormal := by
  obtain ⟨h00, h11, h22, h01, h02, h12⟩ := hm
  rw [rotate_axis_z G h1]
  simp only [Mat4.Orthonormal, Vec3.dot, Vec4.xyz, Vec4.add, Vec4.scale] at *
  refine ⟨?_, ?_, h22, ?_, ?_, ?_⟩
  · linear_combination (G.cos a ^ 2) * h00 + (G.sin a ^ 2) * h11
      + 2 * G.cos a * G.sin a * h01 + hcs
  · linear_combination (G.sin a ^ 2) * h00 + (G.cos a ^ 2) * h11
      - 2 * G.cos a * G.sin a * h01 + hcs
  · linear_combination -(G.cos a * G.sin a) * h00 + G.cos a * G.sin a * h11
      + (G.cos a ^ 2 - G.sin a ^ 2) * h01
  · linear_combination G.cos a * h02 + G.sin a * h12
  · linear_combination -(G.sin a) * h02 + G.cos a * h12

end MatrixLemmas

/-! ### The real-number reading of the library functions -/

/-- The real `inversesqrt` maps 1 to 1, so the unit axes are their own normalisation. -/
theorem real_inversesqrt_one :
    (GlmMath.mk Real.pi Real.cos Real.sin fun x => 1 / Real.sqrt x).inversesqrt 1 = 1 := by
  simp

/-- The sine of the tilt angle 23.4 degrees is positive. -/
theorem sin_tilt_pos : 0 < Real.sin (234 / 10 * (Real.pi / 180)) := by
  apply Real.sin_pos_of_pos_of_lt_pi
  · positivity
  · have := Real.pi_pos
    linarith

/-- C6, as the code has it: at day 0 the three day-dependent rotations are the identity, and
the Earth's model matrix is the translation by (24, 0, 0) followed by the tilt: its
translation component is (24, 0, 0) and its rotation component is the rotation by -23.4
degrees about Z, which is not the identity. -/
theorem model_earth_day_zero :
    model_earth (GlmMath.mk Real.pi Real.cos Real.sin fun x => 1 / Real.sqrt x) (0 : ℝ) =
      rotate (GlmMath.mk Real.pi Real.cos Real.sin fun x => 1 / Real.sqrt x)
        (translate Mat4.identity ⟨24, 0, 0⟩)
        (radians (GlmMath.mk Real.pi Real.cos Real.sin fun x => 1 / Real.sqrt x) (-(234 / 10)))
        ⟨0, 0, 1⟩ ∧
    Mat4.translation (model_earth (GlmMath.mk Real.pi Real.cos Real.sin fun x => 1 / Real.sqrt x)
      (0 : ℝ)) = ⟨24, 0, 0⟩ ∧
    Mat4.rotation (model_earth (GlmMath.mk Real.pi Real.cos Real.sin fun x => 1 / Real.sqrt x)
      (0 : ℝ)) =
      (⟨Real.cos (234 / 10 * (Real.pi / 180)), -Real.sin (234 / 10 * (Real.pi / 180)), 0⟩,
       ⟨Real.sin (234 / 10 * (Real.pi / 180)), Real.cos (234 / 10 * (Real.pi / 180)), 0⟩,
       ⟨0, 0, 1⟩) ∧
    Mat4.rotation (model_earth (GlmMath.mk Real.pi Real.cos Real.sin fun x => 1 / Real.sqrt x)
      (0 : ℝ)) ≠ Mat4.rotation (Mat4.identity : Mat4 ℝ) := by
  have h1 := real_inversesqrt_one
  have hs := sin_tilt_pos
  refine ⟨?_, ?_, ?_, ?_⟩
  · simp only [model_earth, model_earth_with_radius, rotate_axis_y _ h1, rotate_axis_z _ h1]
    simp [Mat4.identity, translate, radians, Vec4.add, Vec4.scale,
      get_earth_rotate_angle_around_itself, get_earth_rotate_angle_around_sun]
  · simp only [model_earth, model_earth_with_radius, rotate_axis_y _ h1, rotate_axis_z _ h1]
    simp [Mat4.translation, Mat4.identity, translate, radians, Vec4.add, Vec4.scale,
      Vec4.xyz, get_earth_rotate_angle_around_itself, get_earth_rotate_angle_around_sun]
  · simp only [model_earth, model_earth_with_radius, rotate_axis_y _ h1, rotate_axis_z _ h1]
    simp [Mat4.rotation, Mat4.identity, translate, radians, Vec4.add, Vec4.scale,
      Vec4.xyz, get_earth_rotate_angle_around_itself, get_earth_rotate_angle_around_sun]
  · simp only [model_earth, model_earth_with_radius, rotate_axis_y _ h1, rotate_axis_z _ h1]
    simp [Mat4.rotation, Mat4.identity, translate, radians, Vec4.add, Vec4.scale,
      Vec4.xyz, get_earth_rotate_angle_around_itself, get_earth_rotate_angle_around_sun]
    intro _ h
    linarith

/-- C6 as stated fails: at day 0 the translation component of the Earth's model matrix is
(24, 0, 0), not the zero vector, and its first rotation column is not (1, 0, 0). -/
theorem model_earth_day_zero_not_identity :
    Mat4.translation (model_earth (GlmMath.mk Real.pi Real.cos Real.sin fun x => 1 / Real.sqrt x)
      (0 : ℝ)) ≠ ⟨0, 0, 0⟩ ∧
    (model_earth (GlmMath.mk Real.pi Real.cos Real.sin fun x => 1 / Real.sqrt x)
      (0 : ℝ)).c0.xyz ≠ ⟨1, 0, 0⟩ := by
  have h1 := real_inversesqrt_one
  have hs := sin_tilt_pos
  constructor
  · simp only [model_earth, model_earth_with_radius, rotate_axis_y _ h1, rotate_axis_z _ h1]
    simp [Mat4.translation, Mat4.identity, translate, radians, Vec4.add, Vec4.scale,
      Vec4.xyz, get_earth_rotate_angle_around_itself, get_earth_rotate_angle_around_sun]
  · simp only [model_earth, model_earth_with_radius, rotate_axis_y _ h1, rotate_axis_z _ h1]
    simp [Mat4.identity, translate, radians, Vec4.add, Vec4.scale,
      Vec4.xyz, get_earth_rotate_angle_around_itself, get_earth_rotate_angle_around_sun]
    intro _ h
    linarith

section Parenting

variable {K : Type} [Field K]

/-- Rotating a product rotates its right factor. -/
theorem rotate_mul (G : GlmMath K) (a b : Mat4 K) (x : K) (v : Vec3 K) :
    rotate G (Mat4.mul a b) x v = Mat4.mul a (rotate G b x v) := by
  ext <;> simp only [rotate, Mat4.mul, Mat4.mulVec, Vec4.add, Vec4.scale] <;> ring

/-- The identity matrix is a right unit of the matrix product. -/
theorem mul_identity (a : Mat4 K) : Mat4.mul a Mat4.identity = a := by
  ext <;> simp [Mat4.mul, Mat4.mulVec, Mat4.identity, Vec4.add, Vec4.scale]

/-- The Earth's matrix is its orbit placement times the tilt-and-spin steps 3-5. -/
theorem model_earth_eq_mul_tilt_spin (G : GlmMath K) (day : K) :
    model_earth G day =
      Mat4.mul (translate (rotate G Mat4.identity
          (radians G (get_earth_rotate_angle_around_sun day)) ⟨0, 1, 0⟩) ⟨24, 0, 0⟩)
        (earth_tilt_spin G day) := by
  simp only [model_earth, model_earth_with_radius, earth_tilt_spin]
  rw [← rotate_mul, ← rotate_mul, ← rotate_mul, mul_identity]

end Parenting

/-- The image of the local vertical axis under steps 3-5, in closed form: the tilted axis
`(sin 23.4°, cos 23.4°, 0)` with its horizontal part turned by the self-rotation angle. -/
theorem earth_axis_image (day : ℝ) :
    Mat4.mulDir (earth_tilt_spin (GlmMath.mk Real.pi Real.cos Real.sin fun x => 1 / Real.sqrt x)
      day) ⟨0, 1, 0⟩ =
      ⟨Real.sin (234 / 10 * (Real.pi / 180)) * Real.cos (360 * day * (Real.pi / 180)),
       Real.cos (234 / 10 * (Real.pi / 180)),
       Real.sin (234 / 10 * (Real.pi / 180)) * Real.sin (360 * day * (Real.pi / 180))⟩ := by
  have h1 := real_inversesqrt_one
  simp only [earth_tilt_spin, rotate_axis_y _ h1, rotate_axis_z _ h1]
  have e1 : -(360 / 1 * day) * (Real.pi / 180) = -(360 * day * (Real.pi / 180)) := by ring
  have e2 : 360 / 1 * day * (Real.pi / 180) = 360 * day * (Real.pi / 180) := by ring
  have e3 : -(234 / 10 : ℝ) * (Real.pi / 180) = -(234 / 10 * (Real.pi / 180)) := by ring
  simp only [Mat4.mulDir, Mat4.mulVec, Mat4.identity, radians, Vec4.add, Vec4.scale, Vec4.xyz,
    get_earth_rotate_angle_around_itself, e1, e2, e3, Real.cos_neg, Real.sin_neg]
  ext <;> simp <;> ring

/-- C8, as the code has it: for every day the image of the local vertical axis under steps
3-5 has the same vertical component as at day 0 (the axis keeps its inclination of 23.4
degrees), and at every whole-number day the image is the one of day 0. -/
theorem earth_axis_tilt (day : ℝ) :
    (Mat4.mulDir (earth_tilt_spin (GlmMath.mk Real.pi Real.cos Real.sin fun x => 1 / Real.sqrt x)
        day) ⟨0, 1, 0⟩).y =
      (Mat4.mulDir (earth_tilt_spin (GlmMath.mk Real.pi Real.cos Real.sin fun x => 1 / Real.sqrt x)
        0) ⟨0, 1, 0⟩).y ∧
    (∀ n : ℕ,
      Mat4.mulDir (earth_tilt_spin (GlmMath.mk Real.pi Real.cos Real.sin fun x => 1 / Real.sqrt x)
        (n : ℝ)) ⟨0, 1, 0⟩ =
      Mat4.mulDir (earth_tilt_spin (GlmMath.mk Real.pi Real.cos Real.sin fun x => 1 / Real.sqrt x)
        0) ⟨0, 1, 0⟩) ∧
    model_earth (GlmMath.mk Real.pi Real.cos Real.sin fun x => 1 / Real.sqrt x) day =
      Mat4.mul (translate (rotate (GlmMath.mk Real.pi Real.cos Real.sin fun x => 1 / Real.sqrt x)
          Mat4.identity
          (radians (GlmMath.mk Real.pi Real.cos Real.sin fun x => 1 / Real.sqrt x)
            (get_earth_rotate_angle_around_sun day)) ⟨0, 1, 0⟩) ⟨24, 0, 0⟩)
        (earth_tilt_spin (GlmMath.mk Real.pi Real.cos Real.sin fun x => 1 / Real.sqrt x) day) := by
  refine ⟨?_, ?_, model_earth_eq_mul_tilt_spin _ day⟩
  · rw [earth_axis_image, earth_axis_image]
  · intro n
    rw [earth_axis_image, earth_axis_image]
    have e : 360 * (n : ℝ) * (Real.pi / 180) = (n : ℝ) * (2 * Real.pi) := by ring
    have e' : (n : ℝ) * (2 * Real.pi) = ((2 * n : ℕ) : ℝ) * Real.pi := by push_cast; ring
    have hs : Real.sin ((n : ℝ) * (2 * Real.pi)) = 0 := by
      rw [e']
      exact Real.sin_nat_mul_pi (2 * n)
    rw [e, Real.cos_nat_mul_two_pi, hs]
    simp

/-- C8 as stated fails: a quarter of a day after day 0 the image of the local vertical axis
under steps 3-5 is not the image at day 0 (its X component has dropped from sin 23.4° to 0). -/
theorem earth_axis_not_fixed :
    Mat4.mulDir (earth_tilt_spin (GlmMath.mk Real.pi Real.cos Real.sin fun x => 1 / Real.sqrt x)
        (1 / 4 : ℝ)) ⟨0, 1, 0⟩ ≠
      Mat4.mulDir (earth_tilt_spin (GlmMath.mk Real.pi Real.cos Real.sin fun x => 1 / Real.sqrt x)
        (0 : ℝ)) ⟨0, 1, 0⟩ := by
  rw [earth_axis_image, earth_axis_image]
  have hs := sin_tilt_pos
  have e : 360 * (1 / 4 : ℝ) * (Real.pi / 180) = Real.pi / 2 := by ring
  rw [e, Real.cos_pi_div_two]
  intro h
  have hx := congrArg Vec3.x h
  simp at hx
  linarith

/-- C9: for every day `≥ 0`, in real arithmetic, the Sun's centre is the world origin, the
Earth's centre is at Euclidean distance exactly 24 from it, and the Moon's centre is at
Euclidean distance exactly 10 from the Earth's centre. -/
theorem orbit_radii_preserved (day : ℝ) (hday : 0 ≤ day) :
    worldPosition (model_sun (GlmMath.mk Real.pi Real.cos Real.sin fun x => 1 / Real.sqrt x) day)
      = ⟨0, 0, 0⟩ ∧
    Real.sqrt (distSq
      (worldPosition (model_earth (GlmMath.mk Real.pi Real.cos Real.sin fun x => 1 / Real.sqrt x)
        day))
      (worldPosition (model_sun (GlmMath.mk Real.pi Real.cos Real.sin fun x => 1 / Real.sqrt x)
        day))) = 24 ∧
    Real.sqrt (distSq
      (worldPosition (model_moon (GlmMath.mk Real.pi Real.cos Real.sin fun x => 1 / Real.sqrt x)
        day))
      (worldPosition (model_earth (GlmMath.mk Real.pi Real.cos Real.sin fun x => 1 / Real.sqrt x)
        day))) = 10 := by
  have _ := hday
  have h1 := real_inversesqrt_one
  have hcs : ∀ a : ℝ, (GlmMath.mk Real.pi Real.cos Real.sin fun x => 1 / Real.sqrt x).cos a ^ 2
      + (GlmMath.mk Real.pi Real.cos Real.sin fun x => 1 / Real.sqrt x).sin a ^ 2 = 1 := by
    intro a
    exact Real.cos_sq_add_sin_sq a
  have hsun : worldPosition (model_sun
      (GlmMath.mk Real.pi Real.cos Real.sin fun x => 1 / Real.sqrt x) day) = ⟨0, 0, 0⟩ := by
    simp only [model_sun, worldPosition_rotate]
    simp only [worldPosition_eq, Mat4.identity, Vec4.xyz]
  have horbit : (rotate (GlmMath.mk Real.pi Real.cos Real.sin fun x => 1 / Real.sqrt x)
      Mat4.identity (radians (GlmMath.mk Real.pi Real.cos Real.sin fun x => 1 / Real.sqrt x)
        (get_earth_rotate_angle_around_sun day)) ⟨0, 1, 0⟩).Orthonormal :=
    orthonormal_rotate_y _ h1 _ (hcs _) _ orthonormal_identity
  have hearth : (model_earth
      (GlmMath.mk Real.pi Real.cos Real.sin fun x => 1 / Real.sqrt x) day).Orthonormal := by
    simp only [model_earth, model_earth_with_radius]
    exact orthonormal_rotate_y _ h1 _ (hcs _) _ (orthonormal_rotate_z _ h1 _ (hcs _) _
      (orthonormal_rotate_y _ h1 _ (hcs _) _ (orthonormal_translate _ horbit _)))
  have hmoon : (rotate (GlmMath.mk Real.pi Real.cos Real.sin fun x => 1 / Real.sqrt x)
      (model_earth (GlmMath.mk Real.pi Real.cos Real.sin fun x => 1 / Real.sqrt x) day)
      (radians (GlmMath.mk Real.pi Real.cos Real.sin fun x => 1 / Real.sqrt x)
        (get_moon_rotate_angle_around_earth day)) ⟨0, 1, 0⟩).Orthonormal :=
    orthonormal_rotate_y _ h1 _ (hcs _) _ hearth
  have he := distSq_translate_x _ horbit 24
  have hm := distSq_translate_x _ hmoon 10
  simp only [worldPosition_rotate] at he hm
  refine ⟨hsun, ?_, ?_⟩
  · have e1 : worldPosition (model_sun
        (GlmMath.mk Real.pi Real.cos Real.sin fun x => 1 / Real.sqrt x) day) =
        worldPosition (Mat4.identity : Mat4 ℝ) := by
      simp only [model_sun, worldPosition_rotate]
    have e2 : worldPosition (model_earth
        (GlmMath.mk Real.pi Real.cos Real.sin fun x => 1 / Real.sqrt x) day) =
        worldPosition (translate (rotate
          (GlmMath.mk Real.pi Real.cos Real.sin fun x => 1 / Real.sqrt x)
          Mat4.identity (radians (GlmMath.mk Real.pi Real.cos Real.sin fun x => 1 / Real.sqrt x)
            (get_earth_rotate_angle_around_sun day)) ⟨0, 1, 0⟩) ⟨24, 0, 0⟩) := by
      simp only [model_earth, model_earth_with_radius, worldPosition_rotate]
    rw [e1, e2, he, Real.sqrt_sq (by norm_num)]
  · have e3 : worldPosition (model_moon
        (GlmMath.mk Real.pi Real.cos Real.sin fun x => 1 / Real.sqrt x) day) =
        worldPosition (translate (rotate
          (GlmMath.mk Real.pi Real.cos Real.sin fun x => 1 / Real.sqrt x)
          (model_earth (GlmMath.mk Real.pi Real.cos Real.sin fun x => 1 / Real.sqrt x) day)
          (radians (GlmMath.mk Real.pi Real.cos Real.sin fun x => 1 / Real.sqrt x)
            (get_moon_rotate_angle_around_earth day)) ⟨0, 1, 0⟩) ⟨10, 0, 0⟩) := by
      simp only [model_moon, model_moon_from, worldPosition_rotate]
    rw [e3, hm, Real.sqrt_sq (by norm_num)]

/-- C9 at day 1: the Earth is 24 away from the Sun. -/
theorem orbit_radii_preserved_witness :
    (0 : ℝ) ≤ 1 ∧
    Real.sqrt (distSq
      (worldPosition (model_earth (GlmMath.mk Real.pi Real.cos Real.sin fun x => 1 / Real.sqrt x)
        1))
      (worldPosition (model_sun (GlmMath.mk Real.pi Real.cos Real.sin fun x => 1 / Real.sqrt x)
        1))) = 24 :=
  ⟨zero_le_one, (orbit_radii_preserved 1 zero_le_one).2.1⟩

/-! ## Frame capture -/

/-- The flipped pixel index stays inside the image. -/
theorem flipped_index_lt (width height i j : Nat) (hi : i < height) (hj : j < width) :
    (height - i - 1) * width + j < width * height := by
  have h1 : (height - i - 1) + 1 ≤ height := by omega
  calc (height - i - 1) * width + j < (height - i - 1) * width + width := by omega
    _ = ((height - i - 1) + 1) * width := by ring
    _ ≤ height * width := Nat.mul_le_mul_right _ h1
    _ = width * height := Nat.mul_comm _ _

/-- Without `size_t` overflow, line 55 computes the mathematical offset. -/
theorem cur_eq (width height i j : Nat) (hov : 3 * width * height < 2 ^ 64)
    (hi : i < height) (hj : j < width) :
    flippedRow height i = height - i - 1 ∧
    cur width height i j = 3 * ((height - i - 1) * width + j) ∧
    cur width height i j + 2 < 3 * width * height := by
  have hlt := flipped_index_lt width height i j hi hj
  have hwh : width * height < 2 ^ 64 := by
    have : width * height ≤ 3 * width * height := by
      rw [Nat.mul_assoc]; exact Nat.le_mul_of_pos_left _ (by norm_num)
    omega
  have hh : height < 2 ^ 64 := by
    have : height ≤ width * height := Nat.le_mul_of_pos_left _ (by omega)
    omega
  have hrow : flippedRow height i = height - i - 1 := by
    simp only [flippedRow, wrap64]
    omega
  have hmul : (height - i - 1) * width < 2 ^ 64 := by omega
  have h3 : 3 * ((height - i - 1) * width + j) + 2 < 3 * width * height := by
    rw [Nat.mul_assoc]; omega
  have hcur : cur width height i j = 3 * ((height - i - 1) * width + j) := by
    simp only [cur, hrow, wrap64]
    rw [Nat.mod_eq_of_lt hmul, Nat.mod_eq_of_lt (by omega), Nat.mod_eq_of_lt (by omega)]
  exact ⟨hrow, hcur, by rw [hcur]; exact h3⟩

/-- C10: for positive `width` and `height` with `3 * width * height` below 2^31 (so that the
`int` of line 45 does not overflow), `totalPixelSize` is `3 * width * height`; in every loop
iteration `height - i - 1` does not wrap, the offsets `cur`, `cur + 1`, `cur + 2` are inside
the array; `(i, j) ↦ cur / 3` is a bijection from the iterations onto the pixel numbers
`0 .. width * height - 1`, and every byte offset is read in exactly one iteration. -/
theorem pixel_indexing_in_bounds (width height : Nat) (hw : 0 < width) (hh : 0 < height)
    (hov : 3 * width * height < 2 ^ 31) :
    totalPixelSize width height = ((3 * width * height : Nat) : Int) ∧
    (∀ i j, i < height → j < width →
      i + 1 ≤ height ∧ flippedRow height i = height - i - 1 ∧
      cur width height i j = 3 * ((height - i - 1) * width + j) ∧
      cur width height i j + 2 < 3 * width * height ∧
      cur width height i j / 3 < width * height) ∧
    (∀ p, p < width * height →
      ∃! ij : Nat × Nat, ij.1 < height ∧ ij.2 < width ∧ cur width height ij.1 ij.2 / 3 = p) ∧
    (∀ b, b < 3 * width * height →
      ∃! ijk : Nat × Nat × Nat, ijk.1 < height ∧ ijk.2.1 < width ∧ ijk.2.2 < 3 ∧
        cur width height ijk.1 ijk.2.1 + ijk.2.2 = b) := by
  have hov64 : 3 * width * height < 2 ^ 64 := by omega
  have hcur := fun i j hi hj => cur_eq width height i j hov64 hi hj
  refine ⟨?_, ?_, ?_, ?_⟩
  · have h3w : 3 * width ≤ 3 * width * height := Nat.le_mul_of_pos_right _ hh
    have hhh : height ≤ 3 * width * height := Nat.le_mul_of_pos_left _ (by omega)
    simp only [totalPixelSize, toInt32, wrap32, wrap64]
    rw [Nat.mod_eq_of_lt (show width < 2 ^ 32 by omega), Nat.mod_eq_of_lt (show height < 2 ^ 32 by omega),
      Nat.mod_eq_of_lt (show 3 * width < 2 ^ 32 by omega), Nat.mul_one,
      Nat.mod_eq_of_lt (show 3 * width * height < 2 ^ 32 by omega),
      Nat.mod_eq_of_lt (show 3 * width * height < 2 ^ 64 by omega),
      Nat.mod_eq_of_lt (show 3 * width * height < 2 ^ 32 by omega)]
    rw [if_pos hov]
  · intro i j hi hj
    obtain ⟨h1, h2, h3⟩ := hcur i j hi hj
    refine ⟨by omega, h1, h2, h3, ?_⟩
    rw [h2, Nat.mul_div_cancel_left _ (by norm_num : 0 < 3)]
    exact flipped_index_lt width height i j hi hj
  · intro p hp
    obtain ⟨q, r, hq, hr, hqr⟩ : ∃ q r, q < height ∧ r < width ∧ q * width + r = p := by
      refine ⟨p / width, p % width, ?_, Nat.mod_lt _ hw, Nat.div_add_mod' p width⟩
      rw [Nat.div_lt_iff_lt_mul hw, Nat.mul_comm]; exact hp
    refine ⟨(height - 1 - q, r), ⟨by omega, hr, ?_⟩, ?_⟩
    · rw [(hcur _ _ (by omega) hr).2.1, Nat.mul_div_cancel_left _ (by norm_num : 0 < 3)]
      have : height - (height - 1 - q) - 1 = q := by omega
      rw [this]
      exact hqr
    · rintro ⟨i, j⟩ ⟨hi, hj, he⟩
      simp only at hi hj he
      rw [(hcur i j hi hj).2.1, Nat.mul_div_cancel_left _ (by norm_num : 0 < 3)] at he
      have hdiv : q = height - i - 1 := by
        have h1 : (q * width + r) / width = q := by
          rw [Nat.mul_comm, Nat.mul_add_div hw, Nat.div_eq_of_lt hr, Nat.add_zero]
        have h2 : ((height - i - 1) * width + j) / width = height - i - 1 := by
          rw [Nat.mul_comm, Nat.mul_add_div hw, Nat.div_eq_of_lt hj, Nat.add_zero]
        rw [← h1, ← h2, hqr, he]
      have hmod : r = j := by
        have h1 : (q * width + r) % width = r := by
          rw [Nat.mul_comm, Nat.mul_add_mod, Nat.mod_eq_of_lt hr]
        have h2 : ((height - i - 1) * width + j) % width = j := by
          rw [Nat.mul_comm, Nat.mul_add_mod, Nat.mod_eq_of_lt hj]
        rw [← h1, ← h2, hqr, he]
      ext
      · simp only; omega
      · simp only; omega
  · intro b hb
    obtain ⟨q, r, hq, hr, hqr⟩ : ∃ q r, q < height ∧ r < width ∧ q * width + r = b / 3 := by
      refine ⟨b / 3 / width, b / 3 % width, ?_, Nat.mod_lt _ hw, Nat.div_add_mod' (b / 3) width⟩
      rw [Nat.div_lt_iff_lt_mul hw, Nat.div_lt_iff_lt_mul (by norm_num)]
      calc b < 3 * width * height := hb
        _ = height * width * 3 := by ring
    refine ⟨(height - 1 - q, r, b % 3), ⟨by omega, hr, Nat.mod_lt _ (by norm_num), ?_⟩, ?_⟩
    · simp only
      rw [(hcur _ _ (by omega) hr).2.1]
      have : height - (height - 1 - q) - 1 = q := by omega
      rw [this, hqr]
      exact Nat.div_add_mod b 3
    · rintro ⟨i, j, k⟩ ⟨hi, hj, hk, he⟩
      simp only at hi hj hk he
      rw [(hcur i j hi hj).2.1] at he
      have hb3 : b / 3 = (height - i - 1) * width + j := by omega
      have hk3 : b % 3 = k := by omega
      have hdiv : q = height - i - 1 := by
        have h1 : (q * width + r) / width = q := by
          rw [Nat.mul_comm, Nat.mul_add_div hw, Nat.div_eq_of_lt hr, Nat.add_zero]
        have h2 : ((height - i - 1) * width + j) / width = height - i - 1 := by
          rw [Nat.mul_comm, Nat.mul_add_div hw, Nat.div_eq_of_lt hj, Nat.add_zero]
        rw [← h1, ← h2, hqr, hb3]
      have hmod : r = j := by
        have h1 : (q * width + r) % width = r := by
          rw [Nat.mul_comm, Nat.mul_add_mod, Nat.mod_eq_of_lt hr]
        have h2 : ((height - i - 1) * width + j) % width = j := by
          rw [Nat.mul_comm, Nat.mul_add_mod, Nat.mod_eq_of_lt hj]
        rw [← h1, ← h2, hqr, hb3]
      ext
      · simp only; omega
      · simp only; omega
      · simp only; omega

/-- C10 at the window's size (line 173: 1024 x 576): the last iteration reads inside the
array. -/
theorem pixel_indexing_in_bounds_witness :
    totalPixelSize 1024 576 = ((3 * 1024 * 576 : Nat) : Int) ∧
    cur 1024 576 575 1023 + 2 < 3 * 1024 * 576 :=
  ⟨(pixel_indexing_in_bounds 1024 576 (by decide) (by decide) (by decide)).1,
    ((pixel_indexing_in_bounds 1024 576 (by decide) (by decide) (by decide)).2.1 575 1023
      (by decide) (by decide)).2.2.2.1⟩

/-! ### Decimal numerals and tokens -/

/-- A digit character has its digit as value and is not white space. -/
theorem digitChar_spec (k : Nat) (hk : k < 10) :
    digitValue (Nat.digitChar k) = some k ∧ isWhite (Nat.digitChar k) = false := by
  interval_cases k <;> decide

/-- The digits `Nat.toDigitsCore` puts in front of `acc`: at least one, none of them white
space, and read back they continue the value `n`. -/
theorem toDigitsCore_spec (fuel : Nat) :
    ∀ (n : Nat) (acc : List Char), n < fuel →
      (∃ d ds, Nat.toDigitsCore 10 fuel n acc = d :: ds) ∧
      (∀ c ∈ Nat.toDigitsCore 10 fuel n acc, c ∈ acc ∨ isWhite c = false) ∧
      (Nat.toDigitsCore 10 fuel n acc).foldl parseStep (some 0) =
        acc.foldl parseStep (some n) := by
  induction fuel with
  | zero => intro n acc h; omega
  | succ fuel ih =>
    intro n acc h
    have hd := digitChar_spec (n % 10) (Nat.mod_lt _ (by norm_num))
    simp only [Nat.toDigitsCore]
    by_cases h0 : n / 10 = 0
    · simp only [h0, if_true]
      refine ⟨⟨_, _, rfl⟩, ?_, ?_⟩
      · intro c hc
        rcases List.mem_cons.1 hc with h | h
        · right; rw [h]; exact hd.2
        · left; exact h
      · have hn : n % 10 = n := by omega
        have hstep : parseStep (some 0) (Nat.digitChar (n % 10)) = some n := by
          simp only [parseStep, hd.1]
          rw [Nat.zero_mul, Nat.zero_add, hn]
        rw [List.foldl_cons, hstep]
    · simp only [h0, if_false]
      obtain ⟨h1, h2, h3⟩ := ih (n / 10) (Nat.digitChar (n % 10) :: acc) (by omega)
      refine ⟨h1, ?_, ?_⟩
      · intro c hc
        rcases h2 c hc with h | h
        · rcases List.mem_cons.1 h with h | h
          · right; rw [h]; exact hd.2
          · left; exact h
        · right; exact h
      · rw [h3]
        have hn : n / 10 * 10 + n % 10 = n := by omega
        have hstep : parseStep (some (n / 10)) (Nat.digitChar (n % 10)) = some n := by
          simp only [parseStep, hd.1]
          rw [hn]
        rw [List.foldl_cons, hstep]

/-- A decimal numeral is a non-empty word without white space that reads back as its value. -/
theorem decimal_spec (n : Nat) :
    decimal n ≠ [] ∧ (∀ c ∈ decimal n, isWhite c = false) ∧ parseDecimal (decimal n) = some n := by
  obtain ⟨⟨d, ds, h1⟩, h2, h3⟩ := toDigitsCore_spec (n + 1) n [] (by omega)
  have hdec : decimal n = Nat.toDigitsCore 10 (n + 1) n [] := rfl
  refine ⟨?_, ?_, ?_⟩
  · rw [hdec, h1]; exact List.cons_ne_nil _ _
  · intro c hc
    rcases h2 c (hdec ▸ hc) with h | h
    · cases h
    · exact h
  · unfold parseDecimal
    rw [hdec, h1] at *
    simp only [List.isEmpty_cons, Bool.false_eq_true, if_false]
    rw [h3]
    rfl

/-- Reading a word up to the white space that ends it. -/
theorem tokensAux_word (w : List Char) :
    ∀ (acc rest : List Char), (∀ c ∈ w, isWhite c = false) →
      tokensAux acc (w ++ rest) = tokensAux (w.reverse ++ acc) rest := by
  induction w with
  | nil => intro acc rest _; rfl
  | cons c w ih =>
    intro acc rest h
    have hc : isWhite c = false := h c (List.mem_cons_self _ _)
    have ih' := ih (c :: acc) rest (fun x hx => h x (List.mem_cons_of_mem _ hx))
    simp only [List.cons_append, tokensAux, hc, Bool.false_eq_true, if_false]
    simp only [List.reverse_cons, List.append_assoc, List.singleton_append] at ih' ⊢
    exact ih'

/-- A word followed by a white-space character is the first token of the text. -/
theorem tokens_word (w : List Char) (sep : Char) (rest : List Char) (hne : w ≠ [])
    (hw : ∀ c ∈ w, isWhite c = false) (hsep : isWhite sep = true) :
    tokens (w ++ sep :: rest) = w :: tokens rest := by
  unfold tokens
  rw [tokensAux_word w [] (sep :: rest) hw]
  simp only [List.append_nil, tokensAux, hsep, if_true]
  have : (w.reverse).isEmpty = false := by
    cases w with
    | nil => exact absurd rfl hne
    | cons a l => simp
  simp [this]

/-- White space before a token is skipped. -/
theorem tokens_white (sep : Char) (rest : List Char) (hsep : isWhite sep = true) :
    tokens (sep :: rest) = tokens rest := by
  simp [tokens, tokensAux, hsep]

/-- A decimal numeral followed by white space is the first token. -/
theorem tokens_decimal (n : Nat) (sep : Char) (rest : List Char) (hsep : isWhite sep = true) :
    tokens (decimal n ++ sep :: rest) = decimal n :: tokens rest :=
  tokens_word _ sep rest (decimal_spec n).1 (decimal_spec n).2.1 hsep

/-- All iterations succeed: the loop's output is the concatenation of theirs. -/
theorem emitAll_map {ι : Type} (l : List ι) (f : ι → Option (List Char)) (g : ι → List Char)
    (h : ∀ x ∈ l, f x = some (g x)) : emitAll (l.map f) = some (l.flatMap g) := by
  induction l with
  | nil => rfl
  | cons a l ih =>
    have ha := h a (List.mem_cons_self _ _)
    have hl := ih (fun x hx => h x (List.mem_cons_of_mem _ hx))
    simp only [List.map_cons, emitAll, ha, hl, List.flatMap_cons, Option.some_bind, Option.map_some']

/-- Reading back a list of decimal numerals gives the numbers. -/
theorem parseAll_map_decimal (l : List Nat) : parseAll (l.map decimal) = some l := by
  induction l with
  | nil => rfl
  | cons a l ih =>
    simp only [List.map_cons, parseAll, (decimal_spec a).2.2, ih, Option.some_bind,
      Option.map_some']

/-- A block of `h` rows of `m` entries each, flattened, is indexed by quotient and remainder. -/
theorem flatMap_range_map {α : Type} (h m : Nat) (F : Nat → Nat → α) :
    (List.range h).flatMap (fun i => (List.range m).map (F i)) =
      (List.range (h * m)).map (fun s => F (s / m) (s % m)) := by
  induction h with
  | zero => simp
  | succ h ih =>
    rw [List.range_succ, List.flatMap_append, ih, Nat.succ_mul, List.range_add, List.map_append,
      List.map_map]
    congr 1
    simp only [List.flatMap_cons, List.flatMap_nil, List.append_nil]
    apply List.map_congr_left
    intro t ht
    have htm : t < m := List.mem_range.1 ht
    have hm : 0 < m := by omega
    simp only [Function.comp]
    have h1 : (h * m + t) / m = h := by
      rw [Nat.mul_comm, Nat.mul_add_div hm, Nat.div_eq_of_lt htm, Nat.add_zero]
    have h2 : (h * m + t) % m = t := by
      rw [Nat.mul_comm, Nat.mul_add_mod, Nat.mod_eq_of_lt htm]
    rw [h1, h2]

/-- Entry `3 * (i * w + j) + k` of `h` rows of `w` triples is component `k` of triple `j` of
row `i`. -/
theorem getElem?_triples {α : Type} (h w : Nat) (f : Nat → Nat → Nat → α) (i j k : Nat)
    (hi : i < h) (hj : j < w) (hk : k < 3) :
    ((List.range h).flatMap fun i => (List.range w).flatMap fun j => [f i j 0, f i j 1, f i j 2])[
      3 * (i * w + j) + k]? = some (f i j k) := by
  have h3 : ∀ i, ((List.range w).flatMap fun j => [f i j 0, f i j 1, f i j 2]) =
      (List.range (w * 3)).map (fun t => f i (t / 3) (t % 3)) := by
    intro i
    rw [← flatMap_range_map w 3 (f i)]
    rfl
  simp only [h3]
  rw [flatMap_range_map h (w * 3) (fun i t => f i (t / 3) (t % 3))]
  have hlt : 3 * (i * w + j) + k < h * (w * 3) := by
    have h1 : i * w + j < w * h := by
      calc i * w + j < i * w + w := by omega
        _ = (i + 1) * w := by ring
        _ ≤ h * w := Nat.mul_le_mul_right _ hi
        _ = w * h := Nat.mul_comm _ _
    have h2 : h * (w * 3) = 3 * (w * h) := by ring
    omega
  rw [List.getElem?_map, List.getElem?_range hlt]
  have hs : 3 * (i * w + j) + k = (w * 3) * i + (3 * j + k) := by ring
  have hr : 3 * j + k < w * 3 := by omega
  have h1 : (3 * (i * w + j) + k) / (w * 3) = i := by
    rw [hs, Nat.mul_add_div (by omega), Nat.div_eq_of_lt hr, Nat.add_zero]
  have h2 : (3 * (i * w + j) + k) % (w * 3) = 3 * j + k := by
    rw [hs, Nat.mul_add_mod, Nat.mod_eq_of_lt hr]
  have h4 : (3 * j + k) / 3 = j := by omega
  have h5 : (3 * j + k) % 3 = k := by omega
  simp only [Option.map_some', h1, h2, h4, h5]

/-- The number of entries of `h` rows of `w` triples. -/
theorem length_triples {α : Type} (h w : Nat) (f : Nat → Nat → Nat → α) :
    ((List.range h).flatMap fun i =>
      (List.range w).flatMap fun j => [f i j 0, f i j 1, f i j 2]).length = 3 * w * h := by
  have h3 : ∀ i, ((List.range w).flatMap fun j => [f i j 0, f i j 1, f i j 2]) =
      (List.range (w * 3)).map (fun t => f i (t / 3) (t % 3)) := by
    intro i
    rw [← flatMap_range_map w 3 (f i)]
    rfl
  simp only [h3]
  rw [flatMap_range_map h (w * 3) (fun i t => f i (t / 3) (t % 3)), List.length_map,
    List.length_range]
  ring

/-- An offset inside the array holds the byte `sampleAt` names. -/
theorem getElem?_sampleAt (pixels : List GLubyte) (k : Nat) (hk : k < pixels.length) :
    ∃ v : GLubyte, pixels[k]? = some v ∧ v.val = sampleAt pixels k := by
  refine ⟨pixels[k], List.getElem?_eq_getElem hk, ?_⟩
  simp [sampleAt, List.getD, List.getElem?_eq_getElem hk]

/-- With its three offsets inside the array, line 56 writes the three values. -/
theorem pixelText_some (pixels : List GLubyte) (c : Nat) (hc : c + 2 < pixels.length) :
    pixelText pixels c =
      some (pixelChars (sampleAt pixels c) (sampleAt pixels (c + 1)) (sampleAt pixels (c + 2))) := by
  obtain ⟨r, hr, hr'⟩ := getElem?_sampleAt pixels c (by omega)
  obtain ⟨g, hg, hg'⟩ := getElem?_sampleAt pixels (c + 1) (by omega)
  obtain ⟨b, hb, hb'⟩ := getElem?_sampleAt pixels (c + 2) hc
  simp only [pixelText, hr, hg, hb, hr', hg', hb']

/-- The three numerals of a pixel are the next three tokens. -/
theorem tokens_pixelChars (r g b : Nat) (rest : List Char) :
    tokens (pixelChars r g b ++ rest) = decimal r :: decimal g :: decimal b :: tokens rest := by
  have e : pixelChars r g b ++ rest =
      decimal r ++ ' ' :: (decimal g ++ ' ' :: (decimal b ++ ' ' :: rest)) := by
    simp [pixelChars]
  rw [e, tokens_decimal r ' ' _ rfl, tokens_decimal g ' ' _ rfl, tokens_decimal b ' ' _ rfl]

/-- The tokens of a run of pixels. -/
theorem tokens_pixels {ι : Type} (r g b : ι → Nat) (l : List ι) (rest : List Char) :
    tokens ((l.flatMap fun j => pixelChars (r j) (g j) (b j)) ++ rest) =
      (l.flatMap fun j => [r j, g j, b j]).map decimal ++ tokens rest := by
  induction l with
  | nil => rfl
  | cons a l ih =>
    simp only [List.flatMap_cons, List.append_assoc, tokens_pixelChars, ih, List.map_append,
      List.map_cons, List.map_nil, List.cons_append, List.nil_append]

/-- The tokens of a run of scanlines, each ended by `std::endl`. -/
theorem tokens_rows (w : Nat) (r g b : Nat → Nat → Nat) (l : List Nat) (rest : List Char) :
    tokens ((l.flatMap fun i =>
        ((List.range w).flatMap fun j => pixelChars (r i j) (g i j) (b i j)) ++ endl) ++ rest) =
      (l.flatMap fun i => (List.range w).flatMap fun j => [r i j, g i j, b i j]).map decimal
        ++ tokens rest := by
  induction l with
  | nil => rfl
  | cons a l ih =>
    simp only [endl] at ih
    simp only [List.flatMap_cons, List.append_assoc, tokens_pixels, endl, List.cons_append,
      List.nil_append, tokens_white '\n' _ rfl, ih, List.map_append]

/-- The four tokens of the header. -/
theorem tokens_header (width height : Nat) (rest : List Char) :
    tokens (headerText width height ++ rest) =
      ['P', '3'] :: decimal width :: decimal height :: decimal 255 :: tokens rest := by
  have e : headerText width height ++ rest =
      ['P', '3'] ++ '\n' :: (decimal width ++ ' ' :: (decimal height ++ '\n' ::
        (decimal 255 ++ '\n' :: rest))) := by
    simp [headerText, endl]
  rw [e, tokens_word ['P', '3'] '\n' _ (by simp) (by decide) rfl,
    tokens_decimal width ' ' _ rfl, tokens_decimal height '\n' _ rfl,
    tokens_decimal 255 '\n' _ rfl]

/-- What the capture writes, for an array of `3 * width * height` bytes: the header and the
scanlines in flipped order, with the offsets of line 55 in closed form. -/
theorem ppmText_eq (width height : Nat) (pixels : List GLubyte)
    (hlen : pixels.length = 3 * width * height) (hmem : pixels.length < 2 ^ 64) :
    ppmText width height pixels = some (headerText width height ++
      (List.range height).flatMap fun i =>
        ((List.range width).flatMap fun j =>
          pixelChars (sampleAt pixels (3 * ((height - 1 - i) * width + j)))
            (sampleAt pixels (3 * ((height - 1 - i) * width + j) + 1))
            (sampleAt pixels (3 * ((height - 1 - i) * width + j) + 2))) ++ endl) := by
  have hov : 3 * width * height < 2 ^ 64 := by omega
  have hrow : ∀ i ∈ List.range height, rowText width height pixels i =
      some (((List.range width).flatMap fun j =>
          pixelChars (sampleAt pixels (3 * ((height - 1 - i) * width + j)))
            (sampleAt pixels (3 * ((height - 1 - i) * width + j) + 1))
            (sampleAt pixels (3 * ((height - 1 - i) * width + j) + 2))) ++ endl) := by
    intro i hi
    have hi' : i < height := List.mem_range.1 hi
    have hpix : ∀ j ∈ List.range width, pixelText pixels (cur width height i j) =
        some (pixelChars (sampleAt pixels (3 * ((height - 1 - i) * width + j)))
            (sampleAt pixels (3 * ((height - 1 - i) * width + j) + 1))
            (sampleAt pixels (3 * ((height - 1 - i) * width + j) + 2))) := by
      intro j hj
      obtain ⟨_, h2, h3⟩ := cur_eq width height i j hov hi' (List.mem_range.1 hj)
      have e : height - i - 1 = height - 1 - i := by omega
      rw [pixelText_some pixels _ (by omega), h2, e]
    simp only [rowText]
    rw [emitAll_map _ _ _ hpix]
    rfl
  simp only [ppmText]
  rw [emitAll_map _ _ _ hrow]
  rfl

/-- A negative `totalPixelSize` makes `new[]` throw. -/
theorem dump_threw_of_negative (st : World) (p : String) (width height : Nat)
    (frame : List GLubyte) (hneg : totalPixelSize width height < 0) :
    dump_framebuffer_to_ppm st p width height frame = Outcome.threw := by
  unfold dump_framebuffer_to_ppm
  simp only [hneg, if_true]

/-- An array shorter than the frame makes `glReadPixels` store past its end. -/
theorem dump_undefined_of_short_array (st : World) (p : String) (width height : Nat)
    (frame : List GLubyte) (h0 : ¬ totalPixelSize width height < 0)
    (ha : st.allocates (totalPixelSize width height).toNat = true)
    (hlt : (totalPixelSize width height).toNat < frame.length) :
    dump_framebuffer_to_ppm st p width height frame = Outcome.undefined := by
  unfold dump_framebuffer_to_ppm
  simp only [h0, ha, hlt, if_true, if_false, Bool.true_eq_false]

/-- With the array allocated, large enough for the frame, and every read inside the frame,
the routine returns: the counter is advanced and the file, when it opens, holds the text. -/
theorem dump_returned (st : World) (p : String) (width height : Nat) (frame : List GLubyte)
    (text : List Char) (h0 : ¬ totalPixelSize width height < 0)
    (ha : st.allocates (totalPixelSize width height).toNat = true)
    (hl : ¬ (totalPixelSize width height).toNat < frame.length)
    (ht : ppmText width height frame = some text) :
    dump_framebuffer_to_ppm st p width height frame =
      Outcome.returned
        { st with
          ss_id := wrap32 (st.ss_id + 1)
          files :=
            if st.opens (file_name p) then Function.update st.files (file_name p) (some text)
            else st.files } := by
  unfold dump_framebuffer_to_ppm
  simp only [h0, ha, hl, ht, if_false, Bool.true_eq_false]

/-- C4, as the code has it: for positive `width` and `height` with `3 * width * height`
below 2^31 (so that the `int` of line 45 does not overflow and the array has that many bytes)
and a frame of `3 * width * height` bytes, the capture sends to the stream a text whose
white-space-separated tokens are `P3`, the width, the height, `255` and then
`3 * width * height` decimal numerals; when the allocation succeeds the routine returns, and
when the file opens it holds exactly this text. Read as a P3 image the text has the given
width and height, and its pixel at text row `i`, column `j` is the triple of bytes at offsets
`3 * ((height - 1 - i) * width + j)`, `+ 1`, `+ 2` of the array. So the first text row is the
array's last row, and an array filled with one colour reads back as that colour at every
pixel. -/
theorem capture_round_trip (width height : Nat) (pixels : List GLubyte)
    (hw : 0 < width) (hh : 0 < height) (hov : 3 * width * height < 2 ^ 31)
    (hlen : pixels.length = 3 * width * height) :
    ∃ (text : List Char) (img : P3Image),
      ppmText width height pixels = some text ∧
      (∀ (st : World) (p : String), st.allocates (3 * width * height) = true →
        ∃ st' : World,
          dump_framebuffer_to_ppm st p width height pixels = Outcome.returned st' ∧
          st'.ss_id = wrap32 (st.ss_id + 1) ∧
          (st.opens (file_name p) = true → st'.files (file_name p) = some text) ∧
          (st.opens (file_name p) = false → st'.files = st.files)) ∧
      tokens text = ['P', '3'] :: decimal width :: decimal height :: decimal 255 ::
        img.samples.map decimal ∧
      img.samples = flippedSamples width height pixels ∧
      readP3 text = some img ∧
      img.width = width ∧ img.height = height ∧ img.maxval = 255 ∧
      img.samples.length = 3 * width * height ∧
      (∀ i j, i < height → j < width →
        ∃ r g b : GLubyte,
          pixels[3 * ((height - 1 - i) * width + j)]? = some r ∧
          pixels[3 * ((height - 1 - i) * width + j) + 1]? = some g ∧
          pixels[3 * ((height - 1 - i) * width + j) + 2]? = some b ∧
          img.pixel i j = some (r.val, g.val, b.val)) ∧
      (∀ j, j < width → img.pixel 0 j = bufferPixel width pixels (height - 1) j) ∧
      (∀ r g b : GLubyte,
        (∀ k, k < width * height →
          pixels[3 * k]? = some r ∧ pixels[3 * k + 1]? = some g ∧ pixels[3 * k + 2]? = some b) →
        ∀ i j, i < height → j < width → img.pixel i j = some (r.val, g.val, b.val)) := by
  have hmem : pixels.length < 2 ^ 64 := by omega
  have htotal : totalPixelSize width height = ((3 * width * height : Nat) : Int) := by
    have h3w : 3 * width ≤ 3 * width * height := Nat.le_mul_of_pos_right _ hh
    have hhh : height ≤ 3 * width * height := Nat.le_mul_of_pos_left _ (by omega)
    simp only [totalPixelSize, toInt32, wrap32, wrap64]
    rw [Nat.mod_eq_of_lt (show width < 2 ^ 32 by omega),
      Nat.mod_eq_of_lt (show height < 2 ^ 32 by omega),
      Nat.mod_eq_of_lt (show 3 * width < 2 ^ 32 by omega), Nat.mul_one,
      Nat.mod_eq_of_lt (show 3 * width * height < 2 ^ 32 by omega),
      Nat.mod_eq_of_lt (show 3 * width * height < 2 ^ 64 by omega),
      Nat.mod_eq_of_lt (show 3 * width * height < 2 ^ 32 by omega)]
    rw [if_pos hov]
  have htext := ppmText_eq width height pixels hlen hmem
  have htokens : tokens (headerText width height ++
      (List.range height).flatMap fun i =>
        ((List.range width).flatMap fun j =>
          pixelChars (sampleAt pixels (3 * ((height - 1 - i) * width + j)))
            (sampleAt pixels (3 * ((height - 1 - i) * width + j) + 1))
            (sampleAt pixels (3 * ((height - 1 - i) * width + j) + 2))) ++ endl) =
      ['P', '3'] :: decimal width :: decimal height :: decimal 255 ::
        (flippedSamples width height pixels).map decimal := by
    have htok := tokens_rows width
      (fun i j => sampleAt pixels (3 * ((height - 1 - i) * width + j)))
      (fun i j => sampleAt pixels (3 * ((height - 1 - i) * width + j) + 1))
      (fun i j => sampleAt pixels (3 * ((height - 1 - i) * width + j) + 2))
      (List.range height) []
    have hnil : tokens [] = [] := rfl
    simp only [List.append_nil] at htok
    rw [tokens_header, htok, hnil, List.append_nil]
    rfl
  have hlength : (flippedSamples width height pixels).length = 3 * width * height :=
    length_triples height width
      (fun i j k => sampleAt pixels (3 * ((height - 1 - i) * width + j) + k))
  have hpixel : ∀ i j, i < height → j < width →
      P3Image.pixel ⟨width, height, 255, flippedSamples width height pixels⟩ i j =
      some (sampleAt pixels (3 * ((height - 1 - i) * width + j)),
        sampleAt pixels (3 * ((height - 1 - i) * width + j) + 1),
        sampleAt pixels (3 * ((height - 1 - i) * width + j) + 2)) := by
    intro i j hi hj
    have hget := getElem?_triples height width
      (fun i j k => sampleAt pixels (3 * ((height - 1 - i) * width + j) + k)) i j
    have h0 : (flippedSamples width height pixels)[3 * (i * width + j)]? =
        some (sampleAt pixels (3 * ((height - 1 - i) * width + j))) :=
      hget 0 hi hj (by norm_num)
    have h1 : (flippedSamples width height pixels)[3 * (i * width + j) + 1]? =
        some (sampleAt pixels (3 * ((height - 1 - i) * width + j) + 1)) :=
      hget 1 hi hj (by norm_num)
    have h2 : (flippedSamples width height pixels)[3 * (i * width + j) + 2]? =
        some (sampleAt pixels (3 * ((height - 1 - i) * width + j) + 2)) :=
      hget 2 hi hj (by norm_num)
    simp only [P3Image.pixel, h0, h1, h2]
  have hbytes : ∀ i j, i < height → j < width →
      ∃ r g b : GLubyte,
        pixels[3 * ((height - 1 - i) * width + j)]? = some r ∧
        pixels[3 * ((height - 1 - i) * width + j) + 1]? = some g ∧
        pixels[3 * ((height - 1 - i) * width + j) + 2]? = some b ∧
        r.val = sampleAt pixels (3 * ((height - 1 - i) * width + j)) ∧
        g.val = sampleAt pixels (3 * ((height - 1 - i) * width + j) + 1) ∧
        b.val = sampleAt pixels (3 * ((height - 1 - i) * width + j) + 2) := by
    intro i j hi hj
    have hlt := flipped_index_lt width height i j hi hj
    have e : height - i - 1 = height - 1 - i := by omega
    rw [e] at hlt
    have hb : 3 * ((height - 1 - i) * width + j) + 2 < pixels.length := by
      rw [hlen, Nat.mul_assoc]; omega
    obtain ⟨r, hr, hr'⟩ := getElem?_sampleAt pixels (3 * ((height - 1 - i) * width + j)) (by omega)
    obtain ⟨g, hg, hg'⟩ := getElem?_sampleAt pixels (3 * ((height - 1 - i) * width + j) + 1)
      (by omega)
    obtain ⟨b, hb, hb'⟩ := getElem?_sampleAt pixels (3 * ((height - 1 - i) * width + j) + 2) hb
    exact ⟨r, g, b, hr, hg, hb, hr', hg', hb'⟩
  refine ⟨_, ⟨width, height, 255, flippedSamples width height pixels⟩, htext, ?_, htokens, rfl,
    ?_, rfl, rfl, rfl, hlength, ?_, ?_, ?_⟩
  · intro st p halloc
    have h1 : ¬ (((3 * width * height : Nat) : Int) < 0) := by omega
    have h2 : ¬ ((((3 * width * height : Nat) : Int)).toNat < pixels.length) := by
      rw [Int.toNat_ofNat, hlen]; omega
    refine ⟨_, dump_returned st p width height pixels _ (by rw [htotal]; exact h1)
      (by rw [htotal, Int.toNat_ofNat]; exact halloc) (by rw [htotal]; exact h2) htext,
      rfl, ?_, ?_⟩
    · intro hopen
      simp only [hopen, if_true, Function.update_same]
    · intro hopen
      simp only [hopen, Bool.false_eq_true, if_false]
  · simp only [readP3, htokens, if_true, (decimal_spec _).2.2, parseAll_map_decimal, hlength]
  · intro i j hi hj
    obtain ⟨r, g, b, hr, hg, hb, hr', hg', hb'⟩ := hbytes i j hi hj
    exact ⟨r, g, b, hr, hg, hb, by rw [hpixel i j hi hj, hr', hg', hb']⟩
  · intro j hj
    obtain ⟨r, g, b, hr, hg, hb, hr', hg', hb'⟩ := hbytes 0 j hh hj
    simp only [Nat.sub_zero] at hr hg hb hr' hg' hb'
    have hp := hpixel 0 j hh hj
    simp only [Nat.sub_zero] at hp
    rw [hp]
    simp only [bufferPixel, hr, hg, hb, hr', hg', hb']
  · intro r g b hsolid i j hi hj
    obtain ⟨r', g', b', hr, hg, hb, hr', hg', hb'⟩ := hbytes i j hi hj
    have hlt := flipped_index_lt width height i j hi hj
    have e : height - i - 1 = height - 1 - i := by omega
    rw [e] at hlt
    obtain ⟨h1, h2, h3⟩ := hsolid _ hlt
    rw [hr] at h1
    rw [hg] at h2
    rw [hb] at h3
    cases h1
    cases h2
    cases h3
    rw [hpixel i j hi hj, hr', hg', hb']

/-- C4 on a 2 x 2 image: rows red-green (bottom) and blue-white (top). -/
theorem capture_round_trip_witness :
    ∃ (text : List Char) (img : P3Image),
      ppmText 2 2 [255, 0, 0, 0, 255, 0, 0, 0, 255, 255, 255, 255] = some text ∧
      readP3 text = some img ∧ img.width = 2 ∧ img.height = 2 ∧
      img.pixel 0 0 = bufferPixel 2 [255, 0, 0, 0, 255, 0, 0, 0, 255, 255, 255, 255] 1 0 :=
  match capture_round_trip 2 2 [255, 0, 0, 0, 255, 0, 0, 0, 255, 255, 255, 255]
      (by decide) (by decide) (by decide) (by decide) with
  | ⟨text, img, h1, _, _, _, h3, h4, h5, _, _, _, h9, _⟩ => ⟨text, img, h1, h3, h4, h5, h9 0 (by decide)⟩

/-- C4 as stated fails for large frames and for an environment that refuses the file or the
memory. For the 32768 x 32768 frame `totalPixelSize` is -1073741824 and `new[]` throws; for
65536 x 65537 the array has 196608 bytes and `glReadPixels` stores past its end; and a
1 x 1 capture whose file does not open returns with no file written, one whose allocation is
refused throws. -/
theorem capture_fails_without_preconditions :
    (0 < 32768 ∧ (List.replicate (3 * 32768 * 32768) (0 : GLubyte)).length = 3 * 32768 * 32768 ∧
      totalPixelSize 32768 32768 = -1073741824 ∧
      dump_framebuffer_to_ppm World.initial "solarSystem" 32768 32768
        (List.replicate (3 * 32768 * 32768) 0) = Outcome.threw) ∧
    (totalPixelSize 65536 65537 = 196608 ∧
      dump_framebuffer_to_ppm World.initial "solarSystem" 65536 65537
        (List.replicate (3 * 65536 * 65537) 0) = Outcome.undefined) ∧
    (∃ st' : World,
      dump_framebuffer_to_ppm { World.initial with opens := fun _ => false } "solarSystem" 1 1
        [255, 0, 0] = Outcome.returned st' ∧ st'.files "solarSystem.ppm" = none) ∧
    dump_framebuffer_to_ppm { World.initial with allocates := fun _ => false } "solarSystem" 1 1
      [255, 0, 0] = Outcome.threw := by
  have h1 : totalPixelSize 32768 32768 = -1073741824 := by decide
  have h2 : totalPixelSize 65536 65537 = 196608 := by decide
  refine ⟨⟨by decide, List.length_replicate _ _, h1, ?_⟩, ⟨h2, ?_⟩, ⟨_, rfl, rfl⟩, rfl⟩
  · exact dump_threw_of_negative _ _ _ _ _ (by rw [h1]; decide)
  · refine dump_undefined_of_short_array _ _ _ _ _ (by rw [h2]; decide) rfl ?_
    rw [h2, List.length_replicate]
    decide

/-- C5, what the code does: every capture that returns adds one to `ss_id` (modulo 2^32) and
writes, when the file opens, the file `prefix + ".ppm"`, whose name does not contain the
counter, leaving every other file as it was; so two successive captures from `processInput`
(a red, then a blue 1 x 1 frame) both write `solarSystem.ppm`, the second replacing the
first, and no file with an ordinal in its name exists. -/
theorem capture_file_name_ignores_counter :
    (∀ (st st' : World) (p : String) (width height : Nat) (pixels : List GLubyte),
      dump_framebuffer_to_ppm st p width height pixels = Outcome.returned st' →
        st'.ss_id = wrap32 (st.ss_id + 1) ∧
        (st.opens (p ++ ".ppm") = true →
          st'.files (p ++ ".ppm") = ppmText width height pixels) ∧
        (st.opens (p ++ ".ppm") = false → st'.files = st.files) ∧
        ∀ name, name ≠ p ++ ".ppm" → st'.files name = st.files name) ∧
    (∃ st1 st2 : World,
      processInput_capture World.initial 1 1 [255, 0, 0] = Outcome.returned st1 ∧
      processInput_capture st1 1 1 [0, 0, 255] = Outcome.returned st2 ∧
      st1.ss_id = 1 ∧ st2.ss_id = 2 ∧
      st1.files "solarSystem.ppm" = some "P3\n1 1\n255\n255 0 0 \n".toList ∧
      st2.files "solarSystem.ppm" = some "P3\n1 1\n255\n0 0 255 \n".toList ∧
      st2.files "solarSystem0.ppm" = none ∧ st2.files "solarSystem1.ppm" = none) := by
  constructor
  · intro st st' p width height pixels h
    unfold dump_framebuffer_to_ppm at h
    simp only at h
    split at h
    · cases h
    · split at h
      · cases h
      · split at h
        · cases h
        · split at h
          · cases h
          · next text ht =>
            cases h
            refine ⟨rfl, ?_, ?_, ?_⟩
            · intro hopen
              simp [file_name, hopen, ht]
            · intro hopen
              simp [file_name, hopen]
            · intro name hname
              by_cases hopen : st.opens (p ++ ".ppm") = true
              · simp [file_name, hopen, Function.update, hname]
              · simp [file_name, hopen]
  · refine ⟨_, _, rfl, rfl, ?_, ?_, ?_, ?_, ?_, ?_⟩ <;> decide

end SolarSystem
